import Mathlib

namespace MCPClient

/-! ## Shallow embedding of src/mcp_client_api.py

Python dict values that the orchestrator inspects field-wise are modelled as
`Value.obj` with string fields (a field is truthy iff present and nonempty);
error and skip messages stored in a result mapping are `Value.str`; any other
collaborator payload is `Value.other`.  External effects (the OpenAI oracle,
the per-platform MCP collaborators) are an `Env` of response functions; the
events actually performed are collected in an explicit trace. -/

inductive Value where
  | obj (fields : List (String × String))
  | str (s : String)
  | other
deriving DecidableEq, Repr

abbrev Dict := List (String × Value)
abbrev Params := List (String × String)

/-- Python `d.get(k)` on a string-valued dict. -/
def lookupStr : List (String × String) → String → Option String
  | [], _ => none
  | (k', v) :: rest, k => if k' == k then some v else lookupStr rest k

/-- Python `d.get(k)` read through a truthiness test: `some v` iff the field
is present and truthy (nonempty string). -/
def truthyGet (fs : List (String × String)) (k : String) : Option String :=
  match lookupStr fs k with
  | some v => if v == "" then none else some v
  | none => none

/-- Python `d[k] = v` on an insertion-ordered dict: update in place when the
key exists, append otherwise. -/
def dictInsert (d : Dict) (k : String) (v : Value) : Dict :=
  if d.any (fun e => e.1 == k) then d.map (fun e => if e.1 == k then (k, v) else e)
  else d ++ [(k, v)]

def dictHasKey (d : Dict) (k : String) : Bool := d.any (fun e => e.1 == k)

/-- Python `str.lower()`. -/
def pyLower (s : String) : String := String.mk (s.data.map Char.toLower)

/-- Python `str.strip()`. -/
def pyStrip (s : String) : String :=
  String.mk (((s.data.dropWhile Char.isWhitespace).reverse.dropWhile Char.isWhitespace).reverse)

/-- Python `s.startswith(p)`. -/
def pyStarts (s p : String) : Bool := p.data.isPrefixOf s.data

/-- Decimal digit characters, mirroring Python `str(i)` / f-string rendering
of a nonnegative integer. -/
def digitChar : Nat → Char
  | 0 => '0' | 1 => '1' | 2 => '2' | 3 => '3' | 4 => '4'
  | 5 => '5' | 6 => '6' | 7 => '7' | 8 => '8' | _ => '9'

def decDigitsRec (n : Nat) : List Char :=
  if n < 10 then [digitChar n]
  else decDigitsRec (n / 10) ++ [digitChar (n % 10)]
decreasing_by exact Nat.div_lt_self (by omega) (by omega)

/-- Fuel-driven (structurally recursive, hence kernel-computable) form of
`decDigitsRec`. -/
def decDigitsGo : Nat → Nat → List Char → List Char
  | 0, _, acc => acc
  | fuel + 1, n, acc =>
      if n < 10 then digitChar n :: acc
      else decDigitsGo fuel (n / 10) (digitChar (n % 10) :: acc)

def decDigits (n : Nat) : List Char := decDigitsGo (n + 1) n []

/-- Decimal rendering of a call index, the Lean counterpart of the Python
f-string interpolation of an `enumerate` index. -/
def decRepr (n : Nat) : String := String.mk (decDigits n)

theorem decRepr_sample : decRepr 35 = "35" := rfl

/-! ## Tool registry (lines 83-89) -/

def MCP_SERVER_SCRIPTS : List (String × String) := [
  ("twitter", "/home/ubuntu/twmcp/twitter_mcp_server.py"),
  ("tiktok", "/home/ubuntu/twmcp/tiktok_mcp_server.py"),
  ("linkedin", "/home/ubuntu/twmcp/linkedin_mcp_server.py"),
  ("contentunderstanding", "/home/ubuntu/twmcp/contentunderstanding_mcp_server.py"),
  ("video_download", "/home/ubuntu/twmcp/video_download_mcp_server.py")]

/-! ## Plans, tool calls and the environment -/

/-- One element of the oracle's `calls` / `derivative_calls` list, holding the
values the executor reads: `call_info.get("platform", "")` (assumed string),
`call_info.get("tool_name")` (absent ↦ `none`) and `call_info.get("params", {})`. -/
structure ToolCall where
  platform : String
  tool_name : Option String
  params : Params
deriving DecidableEq, Repr

/-- Shape of the `direct_answer_if_no_tools` field: a JSON string or some
other JSON value (whose Python truthiness never passes the `isinstance` test). -/
inductive DAVal where
  | str (s : String)
  | nonstr
deriving DecidableEq, Repr

/-- Shape of the stage-1 `calls` field as the code distinguishes it
(lines 564-573): absent/null, a list, or any other JSON value. -/
inductive CallsField where
  | absent
  | list (cs : List ToolCall)
  | nonlist
deriving DecidableEq, Repr

structure Plan1 where
  calls : CallsField
  direct_answer : Option DAVal
  process_instructions : Option String
deriving DecidableEq, Repr

structure Plan2 where
  derivative_calls : List ToolCall
  final_process_instructions : Option String
deriving DecidableEq, Repr

/-- Externally observable actions: one oracle consultation per stage, and one
entry per collaborator process actually invoked. -/
inductive Event where
  | oracleConsult (stage : Nat)
  | mcpCall (platform tool_name : String) (params : Params)
deriving DecidableEq, Repr

/-- The environment abstracts the external collaborators: the three oracle
consultations (an `Except.error` covers both an API exception and an
unparseable JSON reply, which the code handles in the same `except` block)
and the MCP collaborator behaviour after the registry check (including the
script-missing and transport failures raised there; the error string stands
for Python's `str(e)`). -/
structure Env where
  oracle1 : Except String Plan1
  oracle2 : Except String Plan2
  oracle3 : Except String String
  tool : String → String → Params → Except String Value

/-- Lines 92-137: the registry check of `call_mcp_tool_via_protocol`; an
unknown platform raises an `HTTPException` (stringified by a caller's
`except` as `"404: ..."`) before any collaborator process is spawned, so no
`mcpCall` event is emitted in that case. -/
def call_mcp_tool_via_protocol (env : Env) (platform tool_name : String) (params : Params) :
    Except String Value × List Event :=
  match lookupStr MCP_SERVER_SCRIPTS (pyLower platform) with
  | none => (.error ("404: MCP server script for platform '" ++ platform ++ "' not configured."), [])
  | some _ => (env.tool platform tool_name params, [.mcpCall platform tool_name params])

/-! ## Chain resolver (lines 140-163, `auto_chain_tiktok_video_analysis`) -/

/-- The playable-media locator a single scanned value contributes: lines
146-149 first overwrite with a truthy `play` field, then with a truthy
`play_url` field, so within one dict `play_url` wins over `play`. -/
def objLocator : Value → Option String
  | .obj fs =>
      match truthyGet fs "play_url" with
      | some u => some u
      | none => truthyGet fs "play"
  | _ => none

def objFilePath : Value → Option String
  | .obj fs => truthyGet fs "file_path"
  | _ => none

/-- One iteration of the scan loop of lines 144-151. -/
def scanStep (acc : Option String × Option String) (v : Value) : Option String × Option String :=
  match v with
  | .obj fs =>
      let p1 := match truthyGet fs "play" with | some u => some u | none => acc.1
      let p2 := match truthyGet fs "play_url" with | some u => some u | none => p1
      let f1 := match truthyGet fs "file_path" with | some f => some f | none => acc.2
      (p2, f1)
  | _ => acc

def scanLocators (vals : List Value) : Option String × Option String :=
  vals.foldl scanStep (none, none)

/-- The presence check of lines 158-160. -/
def analysisGuard (d : Dict) : Bool :=
  d.any (fun e =>
    pyStarts e.1 "contentunderstanding_analyze_local_video" || pyStarts e.1 "auto_video_analysis_result")

structure ChainOut where
  dict : Dict
  trace : List Event
  exc : Option String
deriving Repr

/-- Lines 157-162: the analysis half of the chain.  `fp` is the raw
`file_path` value in scope there; an exception from the analysis collaborator
propagates (`exc`), with the mapping mutations made so far kept, as Python's
in-place mutation does. -/
def chainAnalyze (env : Env) (d : Dict) (fp : Option String) (ev : List Event) : ChainOut :=
  match fp with
  | some f =>
      if !(f == "") && !analysisGuard d then
        let r := call_mcp_tool_via_protocol env "contentunderstanding" "analyze_local_video" [("file_path", f)]
        match r.1 with
        | .ok av => { dict := dictInsert d "auto_video_analysis_result" av, trace := ev ++ r.2, exc := none }
        | .error e => { dict := d, trace := ev ++ r.2, exc := some e }
      else { dict := d, trace := ev, exc := none }
  | none => { dict := d, trace := ev, exc := none }

/-- Lines 140-163.  The download half has no presence check: whenever the scan
found a truthy `play`/`play_url` field the download collaborator is invoked
(the source comment says so explicitly), the download result is stored under
`auto_video_download_result`, and `file_path` is re-read from that result
(`.get` on a non-dict result raises, modelled as `exc`). -/
def auto_chain_tiktok_video_analysis (env : Env) (d : Dict) : ChainOut :=
  match (scanLocators (d.map Prod.snd)).1 with
  | some u =>
      let r := call_mcp_tool_via_protocol env "video_download" "download_video_by_url" [("play_url", u)]
      match r.1 with
      | .error e => { dict := d, trace := r.2, exc := some e }
      | .ok dv =>
          let d1 := dictInsert d "auto_video_download_result" dv
          match dv with
          | .obj fs => chainAnalyze env d1 (lookupStr fs "file_path") r.2
          | _ => { dict := d1, trace := r.2, exc := some "AttributeError: download result has no attribute get" }
  | none => chainAnalyze env d (scanLocators (d.map Prod.snd)).2 []

def isDownloadEvent : Event → Bool
  | .mcpCall p t _ => p == "video_download" && t == "download_video_by_url"
  | _ => false

def isAnalyzeEvent : Event → Bool
  | .mcpCall p t _ => p == "contentunderstanding" && t == "analyze_local_video"
  | _ => false

/-- A result mapping carries a playable-media locator: some value is a dict
with a truthy `play` or `play_url` field. -/
def hasPlayLocator (d : Dict) : Bool := d.any (fun e => (objLocator e.2).isSome)

/-- From the claim's words (C9): the locator of the last result in iteration
order (= insertion order) that carries one. -/
def lastPlayLocator (d : Dict) : Option String := ((d.map Prod.snd).filterMap objLocator).getLast?

/-! ## Executor loops of `gpt_agent_endpoint` -/

/-- Python rendering of `tool_name` inside an f-string (`None` when absent). -/
def toolNameStr : Option String → String
  | none => "None"
  | some s => s

/-- Line 591: `if not platform or not tool_name` (`platform` already lowered
and defaulted to `""`; `tool_name` may be absent or empty). -/
def invalidCall (platform : String) (tn : Option String) : Bool :=
  (platform == "") || (match tn with | none => true | some s => s == "")

/-- Lines 596 and 716: the special-cased tiktok video download. -/
def isTiktokDl (platform : String) (tn : Option String) : Bool :=
  platform == "tiktok" && (tn == some "download_video")

/-- Line 592: the skip entry recorded for an invalid call. -/
def skipEntry (i : Nat) (platform : String) (tn : Option String) : String × Value :=
  ("call_" ++ decRepr i ++ "_skipped",
   .str ("Invalid/Missing platform ('" ++ platform ++ "') or tool_name ('" ++ toolNameStr tn ++ "')."))

/-- Lines 586-614: one iteration of the stage-1 executor loop.  The whole
iteration body (lines 594-613) sits inside a per-call `try`, so every failure
is recorded as a mapping entry and nothing propagates. -/
def runInitialCall (env : Env) (i : Nat) (c : ToolCall) (d : Dict) : Dict × List Event :=
  let platform := pyLower c.platform
  let tn := c.tool_name
  if invalidCall platform tn then
    (dictInsert d (skipEntry i platform tn).1 (skipEntry i platform tn).2, [])
  else
    let t := toolNameStr tn
    let r := call_mcp_tool_via_protocol env platform t c.params
    if isTiktokDl platform tn then
      match r.1 with
      | .error e =>
          (dictInsert d (platform ++ "_" ++ t ++ "_" ++ decRepr i ++ "_error") (.str e), r.2)
      | .ok dv =>
          match dv with
          | .obj fs =>
              let fp := lookupStr fs "file_path"
              let d1 := dictInsert d ("tiktok_download_video_result_" ++ decRepr i) dv
              match fp with
              | some f =>
                  if f == "" then
                    (dictInsert d1 ("tiktok_download_video_error_" ++ decRepr i)
                      (.str "No file_path returned"), r.2)
                  else
                    let r2 := call_mcp_tool_via_protocol env "contentunderstanding"
                      "analyze_local_video" [("file_path", f)]
                    match r2.1 with
                    | .ok av =>
                        (dictInsert d1 ("contentunderstanding_analyze_local_video_from_" ++ f) av,
                         r.2 ++ r2.2)
                    | .error e =>
                        (dictInsert d1 (platform ++ "_" ++ t ++ "_" ++ decRepr i ++ "_error")
                          (.str e), r.2 ++ r2.2)
              | none =>
                  (dictInsert d1 ("tiktok_download_video_error_" ++ decRepr i)
                    (.str "No file_path returned"), r.2)
          | _ =>
              (dictInsert d (platform ++ "_" ++ t ++ "_" ++ decRepr i ++ "_error")
                (.str "AttributeError: download result has no attribute get"), r.2)
    else
      match r.1 with
      | .ok v => (dictInsert d (platform ++ "_" ++ t ++ "_" ++ decRepr i) v, r.2)
      | .error e =>
          (dictInsert d (platform ++ "_" ++ t ++ "_" ++ decRepr i ++ "_error") (.str e), r.2)

/-- The stage-1 executor loop over `initial_calls` (`i` mirrors `enumerate`). -/
def runInitialCalls (env : Env) : List ToolCall → Nat → Dict → List Event → Dict × List Event
  | [], _, d, ev => (d, ev)
  | c :: rest, i, d, ev =>
      let s := runInitialCall env i c d
      runInitialCalls env rest (i + 1) s.1 (ev ++ s.2)

/-- Lines 710-734: one iteration of the stage-2 executor loop.  Unlike stage 1
there is no invalid-call skip check, and only the non-tiktok branch is wrapped
in a `try`: a failure inside the tiktok `download_video` branch propagates
(`exc`), keeping the entries recorded so far (in-place mutation). -/
def runDerivCall (env : Env) (i : Nat) (c : ToolCall) (d : Dict) : ChainOut :=
  let platform := pyLower c.platform
  let tn := c.tool_name
  let t := toolNameStr tn
  let r := call_mcp_tool_via_protocol env platform t c.params
  if isTiktokDl platform tn then
    match r.1 with
    | .error e => { dict := d, trace := r.2, exc := some e }
    | .ok dv =>
        match dv with
        | .obj fs =>
            let fp := lookupStr fs "file_path"
            let d1 := dictInsert d ("tiktok_download_video_result_deriv_" ++ decRepr i) dv
            match fp with
            | some f =>
                if f == "" then
                  { dict := dictInsert d1 ("tiktok_download_video_error_deriv_" ++ decRepr i)
                      (.str "No file_path returned"), trace := r.2, exc := none }
                else
                  let r2 := call_mcp_tool_via_protocol env "contentunderstanding"
                    "analyze_local_video" [("file_path", f)]
                  match r2.1 with
                  | .ok av =>
                      { dict := dictInsert d1
                          ("contentunderstanding_analyze_local_video_from_" ++ f ++ "_deriv") av,
                        trace := r.2 ++ r2.2, exc := none }
                  | .error e => { dict := d1, trace := r.2 ++ r2.2, exc := some e }
            | none =>
                { dict := dictInsert d1 ("tiktok_download_video_error_deriv_" ++ decRepr i)
                    (.str "No file_path returned"), trace := r.2, exc := none }
        | _ => { dict := d, trace := r.2, exc := some "AttributeError: download result has no attribute get" }
  else
    match r.1 with
    | .ok v =>
        { dict := dictInsert d (platform ++ "_" ++ t ++ "_deriv_" ++ decRepr i) v,
          trace := r.2, exc := none }
    | .error e =>
        { dict := dictInsert d (platform ++ "_" ++ t ++ "_deriv_" ++ decRepr i ++ "_error") (.str e),
          trace := r.2, exc := none }

/-- The stage-2 executor loop; a propagating exception aborts the remaining
calls and carries the partially mutated mapping. -/
def runDerivCalls (env : Env) : List ToolCall → Nat → Dict → List Event → ChainOut
  | [], _, d, ev => { dict := d, trace := ev, exc := none }
  | c :: rest, i, d, ev =>
      let s := runDerivCall env i c d
      match s.exc with
      | none => runDerivCalls env rest (i + 1) s.dict (ev ++ s.trace)
      | some e => { dict := s.dict, trace := ev ++ s.trace, exc := some e }

/-! ## Pipeline stages of `POST /gpt_agent` (lines 166-815) -/

structure StageLog where
  status : String
  error : Option String := none
deriving DecidableEq, Repr

/-- Line 582: the full guard on a direct answer — truthy, a string, and with
nonempty whitespace-stripped content. -/
def directAnswerOk : Option DAVal → Bool
  | some (.str s) => !(s == "") && !(pyStrip s == "")
  | _ => false

def daString : Option DAVal → String
  | some (.str s) => s
  | _ => ""

/-- Lines 564-573: the forgiving read of the `calls` field: a list is used,
null/absent or any non-list value becomes the empty list (with a warning). -/
def callsOfField : CallsField → List ToolCall
  | .absent => []
  | .list cs => cs
  | .nonlist => []

structure Stage1Out where
  log : StageLog
  results : Dict
  instructions : String
  finalSet : Option String
  trace : List Event
deriving Repr

/-- Lines 520-632: stage 1.  An oracle failure (API exception or unparseable
reply) marks the stage `failed` and writes the error message to
`final_gpt_processed_result` (line 631).  Otherwise the direct-answer guard,
the executor loop and the chain resolver run as in the source; a chain
exception is caught by the same stage-level `except`. -/
def stage1Run (env : Env) (task : String) : Stage1Out :=
  match env.oracle1 with
  | .error e =>
      let msg := "Stage 1 failed: " ++ e
      { log := { status := "failed", error := some msg }, results := [],
        instructions := "根据初步结果，决定下一步骤以完成用户任务: " ++ task,
        finalSet := some msg, trace := [.oracleConsult 1] }
  | .ok plan =>
      let initial_calls := callsOfField plan.calls
      let instr := plan.process_instructions.getD ("根据初步结果，决定下一步骤以完成用户任务: " ++ task)
      if directAnswerOk plan.direct_answer && initial_calls.isEmpty then
        { log := { status := "completed_direct_answer" }, results := [],
          instructions := instr, finalSet := some (daString plan.direct_answer),
          trace := [.oracleConsult 1] }
      else if !initial_calls.isEmpty then
        let s := runInitialCalls env initial_calls 0 [] []
        let ch := auto_chain_tiktok_video_analysis env s.1
        match ch.exc with
        | none =>
            let status :=
              if ch.dict.any (fun e => pyStarts e.1 "tiktok_download_video_result_") then
                "completed_pending_download_analysis"
              else if !ch.dict.isEmpty then "completed_with_calls"
              else "completed_no_effective_calls"
            { log := { status := status }, results := ch.dict, instructions := instr,
              finalSet := none, trace := .oracleConsult 1 :: (s.2 ++ ch.trace) }
        | some e =>
            let msg := "Stage 1 failed: " ++ e
            { log := { status := "failed", error := some msg }, results := ch.dict,
              instructions := instr, finalSet := some msg,
              trace := .oracleConsult 1 :: (s.2 ++ ch.trace) }
      else
        { log := { status := "completed_no_action_plan" }, results := [],
          instructions := instr, finalSet := none, trace := [.oracleConsult 1] }

structure Stage2Out where
  log : StageLog
  results : Dict
  finalInstr : String
  trace : List Event
deriving Repr

/-- Lines 634-742: stage 2.  Skipped (status stays `pending`) when stage 1
ended `completed_direct_answer` or `failed`; also stays `pending` when the
derivative plan has no calls (line 709's `if` has no else).  A loop
exception or a chain exception marks the stage `failed`, keeping the
partially filled mapping. -/
def stage2Run (env : Env) (s1 : Stage1Out) : Stage2Out :=
  if ["completed_direct_answer", "failed"].contains s1.log.status then
    { log := { status := "pending" }, results := [], finalInstr := s1.instructions, trace := [] }
  else
    match env.oracle2 with
    | .error e =>
        { log := { status := "failed", error := some ("Stage 2 failed: " ++ e) }, results := [],
          finalInstr := s1.instructions, trace := [.oracleConsult 2] }
    | .ok plan =>
        let dcalls := plan.derivative_calls
        let finstr := plan.final_process_instructions.getD s1.instructions
        if dcalls.isEmpty then
          { log := { status := "pending" }, results := [], finalInstr := finstr,
            trace := [.oracleConsult 2] }
        else
          let s := runDerivCalls env dcalls 0 [] []
          match s.exc with
          | some e =>
              { log := { status := "failed", error := some ("Stage 2 failed: " ++ e) },
                results := s.dict, finalInstr := finstr, trace := .oracleConsult 2 :: s.trace }
          | none =>
              let ch := auto_chain_tiktok_video_analysis env s.dict
              match ch.exc with
              | none =>
                  { log := { status := "completed" }, results := ch.dict, finalInstr := finstr,
                    trace := .oracleConsult 2 :: (s.trace ++ ch.trace) }
              | some e =>
                  { log := { status := "failed", error := some ("Stage 2 failed: " ++ e) },
                    results := ch.dict, finalInstr := finstr,
                    trace := .oracleConsult 2 :: (s.trace ++ ch.trace) }

structure PipelineOut where
  stage1 : StageLog
  stage2 : StageLog
  stage3 : StageLog
  final : Option String
  results1 : Dict
  results2 : Dict
  trace : List Event
deriving Repr

/-- Lines 744-815: stage 3 and the run record.  Line 750 resets
`final_gpt_processed_result` to `""` whenever stage 1 did not end in a direct
answer — including when stage 1 `failed`, overwriting the error message set
at line 631.  Stage 3 runs unless stage 1 ended `completed_direct_answer`
or `failed` (stage 2's status is not consulted).  The Redis history write
(lines 786-812) catches all of its own failures and does not affect the
statuses, the trace, or the returned value, and is omitted here. -/
def pipelineRun (env : Env) (task : String) : PipelineOut :=
  let s1 := stage1Run env task
  let s2 := stage2Run env s1
  let finalA := if s1.log.status == "completed_direct_answer" then s1.finalSet else some ""
  if ["completed_direct_answer", "failed"].contains s1.log.status then
    { stage1 := s1.log, stage2 := s2.log, stage3 := { status := "pending" }, final := finalA,
      results1 := s1.results, results2 := s2.results, trace := s1.trace ++ s2.trace }
  else
    match env.oracle3 with
    | .ok s =>
        { stage1 := s1.log, stage2 := s2.log, stage3 := { status := "completed" }, final := some s,
          results1 := s1.results, results2 := s2.results,
          trace := s1.trace ++ s2.trace ++ [.oracleConsult 3] }
    | .error e =>
        let msg := "Stage 3 failed: " ++ e
        { stage1 := s1.log, stage2 := s2.log, stage3 := { status := "failed", error := some msg },
          final := some msg, results1 := s1.results, results2 := s2.results,
          trace := s1.trace ++ s2.trace ++ [.oracleConsult 3] }

/-- Line 815: `return agent_log.get("final_gpt_processed_result", "")`. -/
def gptAgentResponse (env : Env) (task : String) : String :=
  (pipelineRun env task).final.getD ""

/-- Lines 167-170: the endpoint including the missing-task guard
(`payload.get("task")` absent or empty raises a 400). -/
def gpt_agent_endpoint (env : Env) (task : Option String) : Except String String :=
  match task with
  | some t => if t == "" then .error "400: Missing 'task' in payload." else .ok (gptAgentResponse env t)
  | none => .error "400: Missing 'task' in payload."

/-! ## History read endpoints (lines 817-849) -/

structure HistEntry where
  role : String
  content : String
deriving DecidableEq, Repr

/-- Redis `LRANGE key start stop` on the stored list: negative indices count
from the end, the range is clamped, and an inverted range is empty. -/
def lrange (xs : List HistEntry) (start stop : Int) : List HistEntry :=
  let n : Int := xs.length
  let s := max (if start < 0 then n + start else start) 0
  let e := min (if stop < 0 then n + stop else stop) (n - 1)
  if s > e then [] else (xs.drop s.toNat).take (e - s + 1).toNat

/-- Lines 830-838: session-key resolution.  `task_hash` wins when truthy
(nonempty); an empty or absent `task_hash` falls back to hashing `task`;
neither truthy is a 400.  The MD5 hex digest is an external function,
passed in abstractly. -/
def resolve_session_key (md5hex : String → String) (task task_hash : Option String) :
    Except String String :=
  match task_hash with
  | some h =>
      if h == "" then
        match task with
        | some t => if t == "" then .error "400: 请提供task或task_hash参数。"
                    else .ok ("multi_agent_history:" ++ md5hex t)
        | none => .error "400: 请提供task或task_hash参数。"
      else .ok ("multi_agent_history:" ++ h)
  | none =>
      match task with
      | some t => if t == "" then .error "400: 请提供task或task_hash参数。"
                  else .ok ("multi_agent_history:" ++ md5hex t)
      | none => .error "400: 请提供task或task_hash参数。"

/-- Lines 841-847: `lrange(session_key, -limit, -1)`, then keep the `content`
of the assistant-role entries. -/
def chatHistoryOf (xs : List HistEntry) (limit : Int) : List String :=
  ((lrange xs (-limit) (-1)).filter (fun e => e.role == "assistant")).map (fun e => e.content)

/-- `GET /chat_history`: resolved key plus the filtered history. -/
def get_chat_history (md5hex : String → String) (store : String → List HistEntry)
    (task task_hash : Option String) (limit : Int) : Except String (String × List String) :=
  match resolve_session_key md5hex task task_hash with
  | .error e => .error e
  | .ok key => .ok (key, chatHistoryOf (store key) limit)

/-- From the claim's words (C8): the contents of the most recent `limit`
assistant-role entries of the session. -/
def mostRecentAssistant (xs : List HistEntry) (limit : Nat) : List String :=
  let a := (xs.filter (fun e => e.role == "assistant")).map (fun e => e.content)
  a.drop (a.length - limit)

/-! ## Lemmas about the dict and the chain-resolver scan -/

theorem pyStarts_self (s : String) : pyStarts s s = true := by
  unfold pyStarts
  induction s.data with
  | nil => rfl
  | cons c l ih => simp [List.isPrefixOf, ih]

theorem dictInsert_fresh (d : Dict) (k : String) (v : Value)
    (h : dictHasKey d k = false) : dictInsert d k v = d ++ [(k, v)] := by
  unfold dictHasKey at h
  unfold dictInsert
  simp only [h, Bool.false_eq_true, if_false]

theorem analysisGuard_dictInsert (d : Dict) (k : String) (v : Value)
    (h : analysisGuard d = true) : analysisGuard (dictInsert d k v) = true := by
  unfold analysisGuard at h ⊢
  unfold dictInsert
  by_cases hk : d.any (fun e => e.1 == k)
  · rw [if_pos hk, List.any_map]
    obtain ⟨e, he, hp⟩ := List.any_eq_true.mp h
    refine List.any_eq_true.mpr ⟨e, he, ?_⟩
    show (fun e => pyStarts e.1 "contentunderstanding_analyze_local_video" ||
      pyStarts e.1 "auto_video_analysis_result") (if e.1 == k then (k, v) else e) = true
    by_cases h1 : e.1 == k
    · have hk' : e.1 = k := beq_iff_eq.mp h1
      simp only [h1, if_true]
      show (pyStarts k "contentunderstanding_analyze_local_video" ||
        pyStarts k "auto_video_analysis_result") = true
      rw [← hk']
      exact hp
    · simp only [h1]
      simp only [Bool.false_eq_true, if_false]
      exact hp
  · rw [if_neg hk, List.any_append, h]
    rfl

theorem analysisGuard_append_self (d : Dict) (v : Value) :
    analysisGuard (d ++ [("auto_video_analysis_result", v)]) = true := by
  unfold analysisGuard
  rw [List.any_append]
  have : pyStarts "auto_video_analysis_result" "auto_video_analysis_result" = true :=
    pyStarts_self _
  simp [this]

theorem hasPlayLocator_append (d l : Dict) (h : hasPlayLocator d = true) :
    hasPlayLocator (d ++ l) = true := by
  unfold hasPlayLocator at h ⊢
  rw [List.any_append, h]
  rfl

def optOr (a b : Option String) : Option String :=
  match a with
  | some x => some x
  | none => b

theorem scanStep_fst (acc : Option String × Option String) (v : Value) :
    (scanStep acc v).1 = optOr (objLocator v) acc.1 := by
  cases v with
  | obj fs =>
      unfold scanStep objLocator
      cases h1 : truthyGet fs "play_url" <;> cases h2 : truthyGet fs "play" <;>
        simp [h1, h2, optOr]
  | str s => rfl
  | other => rfl

theorem getLast?_cons_or {α : Type} (a : α) (l : List α) :
    (a :: l).getLast? = (match l.getLast? with | some x => some x | none => some a) := by
  cases l with
  | nil => rfl
  | cons b l =>
      rw [List.getLast?_cons_cons]
      have hne : (b :: l) ≠ [] := by simp
      have : (b :: l).getLast?.isSome = true := List.getLast?_isSome.mpr hne
      cases h : (b :: l).getLast? with
      | none => rw [h] at this; simp at this
      | some x => rfl

theorem scan_foldl_fst (vals : List Value) :
    ∀ acc : Option String × Option String,
      (List.foldl scanStep acc vals).1 = optOr ((vals.filterMap objLocator).getLast?) acc.1 := by
  induction vals with
  | nil => intro acc; simp [optOr]
  | cons v vs ih =>
      intro acc
      rw [List.foldl_cons, ih, List.filterMap_cons]
      cases ho : objLocator v with
      | none => rw [scanStep_fst, ho]; rfl
      | some u =>
          rw [scanStep_fst, ho, getLast?_cons_or]
          cases hl : (vs.filterMap objLocator).getLast? <;> rfl

theorem scanLocators_fst (vals : List Value) :
    (scanLocators vals).1 = (vals.filterMap objLocator).getLast? := by
  unfold scanLocators
  rw [scan_foldl_fst]
  cases (vals.filterMap objLocator).getLast? <;> rfl

theorem scan_eq_lastPlayLocator (d : Dict) :
    (scanLocators (d.map Prod.snd)).1 = lastPlayLocator d := scanLocators_fst _

theorem hasPlay_scan_isSome (d : Dict) (h : hasPlayLocator d = true) :
    ∃ u, (scanLocators (d.map Prod.snd)).1 = some u := by
  obtain ⟨e, he, hsome⟩ := List.any_eq_true.mp h
  obtain ⟨u, hu⟩ := Option.isSome_iff_exists.mp hsome
  have hmem : u ∈ (d.map Prod.snd).filterMap objLocator :=
    List.mem_filterMap.mpr ⟨e.2, List.mem_map.mpr ⟨e, he, rfl⟩, hu⟩
  have hne : (d.map Prod.snd).filterMap objLocator ≠ [] := List.ne_nil_of_mem hmem
  obtain ⟨w, hw⟩ := Option.isSome_iff_exists.mp (List.getLast?_isSome.mpr hne)
  exact ⟨w, by rw [scanLocators_fst]; exact hw⟩

/-! ## Lemmas about the decimal index rendering -/

theorem digitChar_isDigit (d : Nat) : (digitChar d).isDigit = true := by
  unfold digitChar
  split <;> rfl

def digitVal (c : Char) : Nat := c.toNat - 48

theorem digitVal_digitChar (d : Nat) (h : d < 10) : digitVal (digitChar d) = d := by
  interval_cases d <;> rfl

def valDigits (l : List Char) : Nat := l.foldl (fun a c => 10 * a + digitVal c) 0

theorem valDigits_append_one (l : List Char) (c : Char) :
    valDigits (l ++ [c]) = 10 * valDigits l + digitVal c := by
  unfold valDigits
  rw [List.foldl_append]
  rfl

theorem valDigits_decDigitsRec (n : Nat) : valDigits (decDigitsRec n) = n := by
  induction n using Nat.strong_induction_on with
  | _ n ih =>
      rw [decDigitsRec]
      by_cases h : n < 10
      · rw [if_pos h]
        show 10 * 0 + digitVal (digitChar n) = n
        rw [digitVal_digitChar n h]
        omega
      · rw [if_neg h]
        rw [valDigits_append_one, ih (n / 10) (Nat.div_lt_self (by omega) (by omega)),
          digitVal_digitChar (n % 10) (Nat.mod_lt n (by omega))]
        omega

theorem decDigitsRec_inj {m n : Nat} (h : decDigitsRec m = decDigitsRec n) : m = n := by
  have := congrArg valDigits h
  rwa [valDigits_decDigitsRec, valDigits_decDigitsRec] at this

theorem decDigitsRec_ne_nil (n : Nat) : decDigitsRec n ≠ [] := by
  rw [decDigitsRec]
  by_cases h : n < 10
  · rw [if_pos h]; simp
  · rw [if_neg h]; simp

theorem decDigitsRec_isDigit (n : Nat) : ∀ c ∈ decDigitsRec n, c.isDigit = true := by
  induction n using Nat.strong_induction_on with
  | _ n ih =>
      rw [decDigitsRec]
      by_cases h : n < 10
      · rw [if_pos h]
        intro c hc
        rw [List.mem_singleton] at hc
        rw [hc]; exact digitChar_isDigit n
      · rw [if_neg h]
        intro c hc
        rcases List.mem_append.mp hc with h1 | h1
        · exact ih (n / 10) (Nat.div_lt_self (by omega) (by omega)) c h1
        · rw [List.mem_singleton] at h1
          rw [h1]; exact digitChar_isDigit _

theorem decDigitsGo_eq (fuel : Nat) : ∀ (n : Nat) (acc : List Char), 0 < fuel → n < 10 ^ fuel →
    decDigitsGo fuel n acc = decDigitsRec n ++ acc := by
  induction fuel with
  | zero => intro n acc h; omega
  | succ f ihf =>
      intro n acc _ hbound
      unfold decDigitsGo
      by_cases h : n < 10
      · rw [if_pos h, decDigitsRec, if_pos h]
        rfl
      · rw [if_neg h]
        have hf : 0 < f := by
          rcases Nat.eq_zero_or_pos f with h0 | h0
          · subst h0; simp at hbound; omega
          · exact h0
        have hdiv : n / 10 < 10 ^ f := by
          rw [Nat.div_lt_iff_lt_mul (by omega)]
          calc n < 10 ^ (f + 1) := hbound
            _ = 10 ^ f * 10 := by rw [pow_succ]
        rw [ihf (n / 10) (digitChar (n % 10) :: acc) hf hdiv]
        conv_rhs => rw [decDigitsRec, if_neg h]
        rw [List.append_assoc]
        rfl

theorem decDigits_eq_rec (n : Nat) : decDigits n = decDigitsRec n := by
  unfold decDigits
  rw [decDigitsGo_eq (n + 1) n [] (by omega)]
  · simp
  · calc n < 10 ^ n := Nat.lt_pow_self (by omega) n
      _ ≤ 10 ^ (n + 1) := Nat.pow_le_pow_right (by omega) (by omega)

theorem decDigits_inj {m n : Nat} (h : decDigits m = decDigits n) : m = n := by
  rw [decDigits_eq_rec, decDigits_eq_rec] at h
  exact decDigitsRec_inj h

theorem decDigits_ne_nil (n : Nat) : decDigits n ≠ [] := by
  rw [decDigits_eq_rec]; exact decDigitsRec_ne_nil n

theorem decDigits_isDigit (n : Nat) : ∀ c ∈ decDigits n, c.isDigit = true := by
  rw [decDigits_eq_rec]; exact decDigitsRec_isDigit n

theorem decRepr_data (n : Nat) : (decRepr n).data = decDigits n := rfl

/-! ## Distinctness of the synthesized result-mapping keys -/

/-- The token after the last underscore of a character list. -/
def lastTok (l : List Char) : List Char :=
  (l.reverse.takeWhile (fun c => !(c == '_'))).reverse

theorem takeWhile_all_append {p : Char → Bool} (xs : List Char) (y : Char) (ys : List Char)
    (hall : ∀ c ∈ xs, p c = true) (hy : p y = false) :
    List.takeWhile p (xs ++ y :: ys) = xs := by
  induction xs with
  | nil => simp [List.takeWhile, hy]
  | cons x l ih =>
      have hx : p x = true := hall x (by simp)
      have ih2 := ih (fun c hc => hall c (by simp [hc]))
      simp [List.takeWhile_cons, hx, ih2]

theorem lastTok_append (s : List Char) (ds : List Char)
    (hds : ∀ c ∈ ds, (c == '_') = false) :
    lastTok (s ++ '_' :: ds) = ds := by
  unfold lastTok
  rw [List.reverse_append, List.reverse_cons, List.append_assoc, List.singleton_append]
  rw [takeWhile_all_append ds.reverse '_' s.reverse
    (fun c hc => by simp [List.mem_reverse] at hc; simp [hds c hc]) (by rfl)]
  exact List.reverse_reverse ds

theorem digits_ne_underscore (n : Nat) : ∀ c ∈ decDigits n, (c == '_') = false := by
  intro c hc
  have hd := decDigits_isDigit n c hc
  rcases hbe : c == '_' with _ | _
  · rfl
  · have : c = '_' := beq_iff_eq.mp hbe
    rw [this] at hd
    exact absurd hd (by decide)

/-- Key of a successful call: `a ++ "_" ++ str(i)` (with `a` the
platform-and-tool part). -/
def mkKey (a : String) (i : Nat) : String := a ++ "_" ++ decRepr i

def mkErrKey (a : String) (i : Nat) : String := a ++ "_" ++ decRepr i ++ "_error"

def skipKeyStr (i : Nat) : String := "call_" ++ decRepr i ++ "_skipped"

theorem mkKey_data (a : String) (i : Nat) :
    (mkKey a i).data = a.data ++ '_' :: decDigits i := by
  unfold mkKey
  rw [String.data_append, String.data_append, List.append_assoc]
  rfl

theorem mkErrKey_data (a : String) (i : Nat) :
    (mkErrKey a i).data = (mkKey a i).data ++ '_' :: "error".data := by
  unfold mkErrKey mkKey
  rw [String.data_append]

theorem skipKeyStr_data (i : Nat) :
    (skipKeyStr i).data = ("call_" ++ decRepr i).data ++ '_' :: "skipped".data := by
  unfold skipKeyStr
  rw [String.data_append]

theorem lastTok_mkKey (a : String) (i : Nat) : lastTok (mkKey a i).data = decDigits i := by
  rw [mkKey_data]
  exact lastTok_append a.data (decDigits i) (digits_ne_underscore i)

theorem lastTok_mkErrKey (a : String) (i : Nat) : lastTok (mkErrKey a i).data = "error".data := by
  rw [mkErrKey_data]
  exact lastTok_append _ _ (by decide)

theorem lastTok_skipKey (i : Nat) : lastTok (skipKeyStr i).data = "skipped".data := by
  rw [skipKeyStr_data]
  exact lastTok_append _ _ (by decide)

theorem mkKey_idx_inj {a b : String} {i j : Nat} (h : mkKey a i = mkKey b j) : i = j := by
  have := congrArg (fun s => lastTok s.data) h
  simp only [lastTok_mkKey] at this
  exact decDigits_inj this

theorem mkErrKey_idx_inj {a b : String} {i j : Nat} (h : mkErrKey a i = mkErrKey b j) : i = j := by
  have hd := congrArg String.data h
  rw [mkErrKey_data, mkErrKey_data] at hd
  have h2 := List.append_cancel_right hd
  have h3 := congrArg lastTok h2
  rw [show lastTok (mkKey a i).data = decDigits i from by
        rw [mkKey_data]; exact lastTok_append a.data (decDigits i) (digits_ne_underscore i),
      show lastTok (mkKey b j).data = decDigits j from by
        rw [mkKey_data]; exact lastTok_append b.data (decDigits j) (digits_ne_underscore j)] at h3
  exact decDigits_inj h3

theorem mkKey_ne_mkErrKey (a b : String) (i j : Nat) : mkKey a i ≠ mkErrKey b j := by
  intro h
  have := congrArg (fun s => lastTok s.data) h
  simp only [lastTok_mkKey, lastTok_mkErrKey] at this
  have hdig := decDigits_isDigit i
  rw [this] at hdig
  exact absurd (hdig 'e' (by decide)) (by decide)

theorem mkKey_ne_skipKey (a : String) (i j : Nat) : mkKey a i ≠ skipKeyStr j := by
  intro h
  have := congrArg (fun s => lastTok s.data) h
  simp only [lastTok_mkKey, lastTok_skipKey] at this
  have hdig := decDigits_isDigit i
  rw [this] at hdig
  exact absurd (hdig 's' (by decide)) (by decide)

theorem mkErrKey_ne_skipKey (a : String) (i j : Nat) : mkErrKey a i ≠ skipKeyStr j := by
  intro h
  have := congrArg (fun s => lastTok s.data) h
  simp only [lastTok_mkErrKey, lastTok_skipKey] at this
  exact absurd this (by decide)

theorem skipKey_idx_inj {i j : Nat} (h : skipKeyStr i = skipKeyStr j) : i = j := by
  have hd := congrArg String.data h
  unfold skipKeyStr at hd
  rw [String.data_append, String.data_append, String.data_append, String.data_append] at hd
  have h2 := List.append_cancel_right hd
  have h3 := List.append_cancel_left h2
  exact decDigits_inj h3

/-! ## The stage-1 executor loop seen per call -/

/-- The single mapping entry one non-tiktok stage-1 call produces: a skip
entry, a success entry, or an error entry. -/
def entry1Of (env : Env) (i : Nat) (c : ToolCall) : String × Value :=
  let platform := pyLower c.platform
  let tn := c.tool_name
  if invalidCall platform tn then skipEntry i platform tn
  else
    match (call_mcp_tool_via_protocol env platform (toolNameStr tn) c.params).1 with
    | .ok v => (mkKey (platform ++ "_" ++ toolNameStr tn) i, v)
    | .error e => (mkErrKey (platform ++ "_" ++ toolNameStr tn) i, .str e)

/-- The collaborator executions one non-tiktok stage-1 call performs (the
index does not influence them; the parameter mirrors `entry1Of`). -/
def events1Of (env : Env) (_i : Nat) (c : ToolCall) : List Event :=
  if invalidCall (pyLower c.platform) c.tool_name then []
  else (call_mcp_tool_via_protocol env (pyLower c.platform) (toolNameStr c.tool_name) c.params).2

theorem runInitialCall_eq (env : Env) (i : Nat) (c : ToolCall) (d : Dict)
    (hnt : isTiktokDl (pyLower c.platform) c.tool_name = false) :
    runInitialCall env i c d =
      (dictInsert d (entry1Of env i c).1 (entry1Of env i c).2, events1Of env i c) := by
  unfold runInitialCall entry1Of events1Of
  by_cases hv : invalidCall (pyLower c.platform) c.tool_name = true
  · simp [hv]
  · simp only [hv, Bool.false_eq_true, if_false, hnt]
    cases hr : (call_mcp_tool_via_protocol env (pyLower c.platform) (toolNameStr c.tool_name) c.params).1 <;>
      simp [hr, mkKey, mkErrKey]

theorem entry1Of_key_cases (env : Env) (i : Nat) (c : ToolCall) :
    (entry1Of env i c).1 = skipKeyStr i ∨
    (∃ a, (entry1Of env i c).1 = mkKey a i) ∨
    (∃ a, (entry1Of env i c).1 = mkErrKey a i) := by
  unfold entry1Of
  by_cases hv : invalidCall (pyLower c.platform) c.tool_name = true
  · left
    simp [hv, skipEntry, skipKeyStr]
  · cases hr : (call_mcp_tool_via_protocol env (pyLower c.platform) (toolNameStr c.tool_name) c.params).1 with
    | ok v =>
        right; left
        exact ⟨pyLower c.platform ++ "_" ++ toolNameStr c.tool_name, by simp [hv, hr]⟩
    | error e =>
        right; right
        exact ⟨pyLower c.platform ++ "_" ++ toolNameStr c.tool_name, by simp [hv, hr]⟩

theorem entry1Of_key_ne (env env2 : Env) {i j : Nat} (c c2 : ToolCall) (hij : i ≠ j) :
    (entry1Of env i c).1 ≠ (entry1Of env2 j c2).1 := by
  rcases entry1Of_key_cases env i c with h1 | ⟨a, h1⟩ | ⟨a, h1⟩ <;>
    rcases entry1Of_key_cases env2 j c2 with h2 | ⟨b, h2⟩ | ⟨b, h2⟩ <;>
    rw [h1, h2]
  · exact fun h => hij (skipKey_idx_inj h)
  · exact fun h => mkKey_ne_skipKey b j i h.symm
  · exact fun h => mkErrKey_ne_skipKey b j i h.symm
  · exact mkKey_ne_skipKey a i j
  · exact fun h => hij (mkKey_idx_inj h)
  · exact fun h => mkKey_ne_mkErrKey a b i j h
  · exact mkErrKey_ne_skipKey a i j
  · exact fun h => mkKey_ne_mkErrKey b a j i h.symm
  · exact fun h => hij (mkErrKey_idx_inj h)

theorem runInitialCalls_spec (env : Env) (cs : List ToolCall) :
    ∀ (i0 : Nat) (d : Dict) (ev : List Event),
      (∀ c ∈ cs, isTiktokDl (pyLower c.platform) c.tool_name = false) →
      (∀ e ∈ d, ∀ jc ∈ List.enumFrom i0 cs, e.1 ≠ (entry1Of env jc.1 jc.2).1) →
      runInitialCalls env cs i0 d ev =
        (d ++ (List.enumFrom i0 cs).map (fun jc => entry1Of env jc.1 jc.2),
         ev ++ (List.enumFrom i0 cs).flatMap (fun jc => events1Of env jc.1 jc.2)) := by
  induction cs with
  | nil => intro i0 d ev _ _; simp [runInitialCalls]
  | cons c rest ih =>
      intro i0 d ev hnt hfresh
      have hntc := hnt c (by simp)
      show runInitialCalls env (c :: rest) i0 d ev = _
      unfold runInitialCalls
      rw [runInitialCall_eq env i0 c d hntc]
      have hfree : dictHasKey d (entry1Of env i0 c).1 = false := by
        unfold dictHasKey
        rw [List.any_eq_false]
        intro e he
        have hne := hfresh e he (i0, c) (by rw [List.enumFrom_cons]; exact List.mem_cons_self _ _)
        simp [hne]
      rw [dictInsert_fresh _ _ _ hfree]
      rw [ih (i0 + 1) (d ++ [entry1Of env i0 c]) (ev ++ events1Of env i0 c)
            (fun c' hc' => hnt c' (by simp [hc']))
            (by
              intro e he jc hjc
              rcases List.mem_append.mp he with hd | hsing
              · exact hfresh e hd jc (by rw [List.enumFrom_cons]; exact List.mem_cons_of_mem _ hjc)
              · rw [List.mem_singleton] at hsing
                subst hsing
                obtain ⟨j, c2⟩ := jc
                have hle := (List.mem_enumFrom hjc).1
                exact entry1Of_key_ne env env c c2 (by omega))]
      rw [List.enumFrom_cons, List.map_cons, List.flatMap_cons]
      simp [List.append_assoc]

theorem runInitialCalls_entries (env : Env) (cs : List ToolCall)
    (hnt : ∀ c ∈ cs, isTiktokDl (pyLower c.platform) c.tool_name = false) :
    runInitialCalls env cs 0 [] [] =
      ((List.enumFrom 0 cs).map (fun jc => entry1Of env jc.1 jc.2),
       (List.enumFrom 0 cs).flatMap (fun jc => events1Of env jc.1 jc.2)) := by
  have := runInitialCalls_spec env cs 0 [] [] hnt (by simp)
  simpa using this

/-! ## Chain-resolver facts used by C1 and C9 -/

theorem chainAnalyze_guard_true (env : Env) (d : Dict) (fp : Option String) (ev : List Event)
    (h : analysisGuard d = true) :
    chainAnalyze env d fp ev = { dict := d, trace := ev, exc := none } := by
  unfold chainAnalyze
  cases fp with
  | none => rfl
  | some f => simp [h]

theorem chainAnalyze_filter_download (env : Env) (d : Dict) (fp : Option String) (ev : List Event) :
    (chainAnalyze env d fp ev).trace.filter isDownloadEvent = ev.filter isDownloadEvent := by
  unfold chainAnalyze
  cases fp with
  | none => rfl
  | some f =>
      by_cases hc : (!(f == "") && !analysisGuard d) = true
      · simp only [hc, if_true]
        have hreg : call_mcp_tool_via_protocol env "contentunderstanding" "analyze_local_video"
            [("file_path", f)] =
            (env.tool "contentunderstanding" "analyze_local_video" [("file_path", f)],
             [Event.mcpCall "contentunderstanding" "analyze_local_video" [("file_path", f)]]) := rfl
        rw [hreg]
        have hio : isDownloadEvent
            (Event.mcpCall "contentunderstanding" "analyze_local_video" [("file_path", f)]) = false := rfl
        cases env.tool "contentunderstanding" "analyze_local_video" [("file_path", f)] <;>
          simp [List.filter_append, hio]
      · simp [hc]

theorem call_download_eq (env : Env) (u : String) :
    call_mcp_tool_via_protocol env "video_download" "download_video_by_url" [("play_url", u)] =
      (env.tool "video_download" "download_video_by_url" [("play_url", u)],
       [Event.mcpCall "video_download" "download_video_by_url" [("play_url", u)]]) := rfl

theorem analysisGuard_false_no_key (d : Dict) (h : analysisGuard d = false) :
    dictHasKey d "auto_video_analysis_result" = false := by
  unfold analysisGuard at h
  unfold dictHasKey
  rw [List.any_eq_false] at h ⊢
  intro e he hkey
  have hek : e.1 = "auto_video_analysis_result" := beq_iff_eq.mp hkey
  have := h e he
  rw [hek] at this
  exact this (by rw [pyStarts_self]; simp)

/-- One chain-resolver run under the download/analysis collaborator contract
(every download returns a dict with a truthy `file_path`; every analysis
succeeds), starting from a mapping with a playable locator and no prior
download entry: exactly one download call, and the output mapping still has
a playable locator and now passes the analysis presence check. -/
theorem chain_first_run (env : Env) (d : Dict)
    (hplay : hasPlayLocator d = true)
    (hnodl : dictHasKey d "auto_video_download_result" = false)
    (hdl : ∀ u, ∃ fs f, env.tool "video_download" "download_video_by_url" [("play_url", u)] =
             .ok (.obj fs) ∧ lookupStr fs "file_path" = some f ∧ f ≠ "")
    (han : ∀ f, ∃ v, env.tool "contentunderstanding" "analyze_local_video" [("file_path", f)] = .ok v) :
    ((auto_chain_tiktok_video_analysis env d).trace.filter isDownloadEvent).length = 1 ∧
    hasPlayLocator (auto_chain_tiktok_video_analysis env d).dict = true ∧
    analysisGuard (auto_chain_tiktok_video_analysis env d).dict = true := by
  obtain ⟨u, hu⟩ := hasPlay_scan_isSome d hplay
  obtain ⟨fs, f, hfs, hf, hfne⟩ := hdl u
  have hins : dictInsert d "auto_video_download_result" (Value.obj fs) =
      d ++ [("auto_video_download_result", Value.obj fs)] := dictInsert_fresh _ _ _ hnodl
  unfold auto_chain_tiktok_video_analysis
  rw [hu]
  simp only [call_download_eq, hfs, hins, hf]
  set d1 := d ++ [("auto_video_download_result", Value.obj fs)] with hd1
  have hplay1 : hasPlayLocator d1 = true := hasPlayLocator_append d _ hplay
  have hdl_ev : isDownloadEvent
      (Event.mcpCall "video_download" "download_video_by_url" [("play_url", u)]) = true := rfl
  cases hg : analysisGuard d1 with
  | true =>
      rw [chainAnalyze_guard_true env d1 (some f) _ hg]
      refine ⟨?_, hplay1, hg⟩
      simp [hdl_ev]
  | false =>
      obtain ⟨v, hv⟩ := han f
      have hcond : (!(f == "") && !analysisGuard d1) = true := by
        simp [hg]
        intro hfeq
        exact hfne (beq_iff_eq.mp (by simp [hfeq]))
      have hfree : dictHasKey d1 "auto_video_analysis_result" = false :=
        analysisGuard_false_no_key d1 hg
      unfold chainAnalyze
      simp only [hcond, if_true]
      have hreg2 : call_mcp_tool_via_protocol env "contentunderstanding" "analyze_local_video"
          [("file_path", f)] =
          (env.tool "contentunderstanding" "analyze_local_video" [("file_path", f)],
           [Event.mcpCall "contentunderstanding" "analyze_local_video" [("file_path", f)]]) := rfl
      rw [hreg2]
      simp only [hv]
      rw [dictInsert_fresh _ _ _ hfree]
      have han_ev : isDownloadEvent
          (Event.mcpCall "contentunderstanding" "analyze_local_video" [("file_path", f)]) = false := rfl
      refine ⟨?_, ?_, ?_⟩
      · simp [List.filter_append, hdl_ev, han_ev]
      · exact hasPlayLocator_append d1 _ hplay1
      · exact analysisGuard_append_self d1 v

/-- A chain-resolver run on a mapping that already passes the analysis
presence check but still carries a playable locator: one more download, no
analysis. -/
theorem chain_second_run (env : Env) (d2 : Dict)
    (hplay : hasPlayLocator d2 = true)
    (hguard : analysisGuard d2 = true)
    (hdl : ∀ u, ∃ fs f, env.tool "video_download" "download_video_by_url" [("play_url", u)] =
             .ok (.obj fs) ∧ lookupStr fs "file_path" = some f ∧ f ≠ "") :
    ((auto_chain_tiktok_video_analysis env d2).trace.filter isDownloadEvent).length = 1 ∧
    ((auto_chain_tiktok_video_analysis env d2).trace.filter isAnalyzeEvent).length = 0 := by
  obtain ⟨u, hu⟩ := hasPlay_scan_isSome d2 hplay
  obtain ⟨fs, f, hfs, hf, _⟩ := hdl u
  unfold auto_chain_tiktok_video_analysis
  rw [hu]
  simp only [call_download_eq, hfs]
  have hguard2 : analysisGuard (dictInsert d2 "auto_video_download_result" (Value.obj fs)) = true :=
    analysisGuard_dictInsert d2 _ _ hguard
  rw [chainAnalyze_guard_true env _ _ _ hguard2]
  constructor
  · simp [isDownloadEvent]
  · simp [isAnalyzeEvent]

/-! ## Claim C1 -/

def envC1 : Env :=
  { oracle1 := .error ""
    oracle2 := .error ""
    oracle3 := .error ""
    tool := fun p _ _ =>
      if p == "video_download" then .ok (.obj [("file_path", "/tmp/f.mp4")])
      else if p == "contentunderstanding" then .ok (.obj [("description", "d")])
      else .error "unexpected" }

def dC1 : Dict := [("tiktok_get_post_detail_0", .obj [("play", "http://v")])]

/-- C1 counterexample: a mapping with one `play`-bearing value and no prior
download entry.  The first chain-resolver run performs exactly one download
(as claimed), but the second run on the unchanged output performs one more
download call — not zero — because the download step keys off the presence of
the locator, not off the `auto_video_download_result` label. -/
theorem C1_counterexample :
    hasPlayLocator dC1 = true ∧
    dictHasKey dC1 "auto_video_download_result" = false ∧
    ((auto_chain_tiktok_video_analysis envC1 dC1).trace.filter isDownloadEvent).length = 1 ∧
    (auto_chain_tiktok_video_analysis envC1
        (auto_chain_tiktok_video_analysis envC1 dC1).dict).trace ≠ [] ∧
    ((auto_chain_tiktok_video_analysis envC1
        (auto_chain_tiktok_video_analysis envC1 dC1).dict).trace.filter isDownloadEvent).length = 1 := by
  decide

/-- C1 (amended): for every result mapping with a playable-media locator and
no prior download entry, and every environment in which the download
collaborator honours its contract (returns a dict with a truthy `file_path`)
and the analysis collaborator succeeds, the first chain-resolver invocation
performs exactly one download call, and a second invocation on the unchanged
result performs exactly one further download call and zero analysis calls:
only the analysis half of the chain is idempotent. -/
theorem C1_chain_not_idempotent (env : Env) (d : Dict)
    (hplay : hasPlayLocator d = true)
    (hnodl : dictHasKey d "auto_video_download_result" = false)
    (hdl : ∀ u, ∃ fs f, env.tool "video_download" "download_video_by_url" [("play_url", u)] =
             .ok (.obj fs) ∧ lookupStr fs "file_path" = some f ∧ f ≠ "")
    (han : ∀ f, ∃ v, env.tool "contentunderstanding" "analyze_local_video" [("file_path", f)] = .ok v) :
    ((auto_chain_tiktok_video_analysis env d).trace.filter isDownloadEvent).length = 1 ∧
    ((auto_chain_tiktok_video_analysis env
        (auto_chain_tiktok_video_analysis env d).dict).trace.filter isDownloadEvent).length = 1 ∧
    ((auto_chain_tiktok_video_analysis env
        (auto_chain_tiktok_video_analysis env d).dict).trace.filter isAnalyzeEvent).length = 0 := by
  obtain ⟨h1, hplay2, hguard2⟩ := chain_first_run env d hplay hnodl hdl han
  obtain ⟨h2, h3⟩ := chain_second_run env _ hplay2 hguard2 hdl
  exact ⟨h1, h2, h3⟩

/-- C1 witness: the amended theorem applied at a concrete mapping and
environment. -/
theorem C1_chain_not_idempotent_witness :
    ((auto_chain_tiktok_video_analysis envC1 dC1).trace.filter isDownloadEvent).length = 1 ∧
    ((auto_chain_tiktok_video_analysis envC1
        (auto_chain_tiktok_video_analysis envC1 dC1).dict).trace.filter isDownloadEvent).length = 1 ∧
    ((auto_chain_tiktok_video_analysis envC1
        (auto_chain_tiktok_video_analysis envC1 dC1).dict).trace.filter isAnalyzeEvent).length = 0 :=
  C1_chain_not_idempotent envC1 dC1 (by decide) (by decide)
    (fun _ => ⟨[("file_path", "/tmp/f.mp4")], "/tmp/f.mp4", rfl, rfl, by decide⟩)
    (fun _ => ⟨.obj [("description", "d")], rfl⟩)

/-! ## Claim C9 -/

/-- C9: when several scanned values carry a playable-media locator, the single
download the chain resolver performs uses the locator of the last one in
iteration order (`lastPlayLocator`, written from the claim's words). -/
theorem C9_last_locator_wins (env : Env) (d : Dict) (hplay : hasPlayLocator d = true) :
    ∃ u, lastPlayLocator d = some u ∧
      (auto_chain_tiktok_video_analysis env d).trace.filter isDownloadEvent =
        [Event.mcpCall "video_download" "download_video_by_url" [("play_url", u)]] := by
  obtain ⟨u, hu⟩ := hasPlay_scan_isSome d hplay
  refine ⟨u, by rw [← scan_eq_lastPlayLocator, hu], ?_⟩
  unfold auto_chain_tiktok_video_analysis
  rw [hu]
  simp only [call_download_eq]
  have hdl_ev : isDownloadEvent
      (Event.mcpCall "video_download" "download_video_by_url" [("play_url", u)]) = true := rfl
  cases htool : env.tool "video_download" "download_video_by_url" [("play_url", u)] with
  | error e => simp [hdl_ev]
  | ok dv =>
      cases dv with
      | obj fs =>
          simp only []
          rw [chainAnalyze_filter_download]
          simp [hdl_ev]
      | str s => simp [hdl_ev]
      | other => simp [hdl_ev]

def envC9 : Env :=
  { oracle1 := .error ""
    oracle2 := .error ""
    oracle3 := .error ""
    tool := fun _ _ _ => .error "down" }

def dC9 : Dict := [("a", .obj [("play", "u1")]), ("b", .obj [("play_url", "u2")])]

/-- C9 witness: with two locator-bearing values, the downloaded locator is the
second (last-scanned) one. -/
theorem C9_last_locator_wins_witness :
    ∃ u, lastPlayLocator dC9 = some u ∧
      (auto_chain_tiktok_video_analysis envC9 dC9).trace.filter isDownloadEvent =
        [Event.mcpCall "video_download" "download_video_by_url" [("play_url", u)]] :=
  C9_last_locator_wins envC9 dC9 (by decide)

/-! ## Claim C6 -/

def envC6 : Env :=
  { oracle1 := .error ""
    oracle2 := .error ""
    oracle3 := .error ""
    tool := fun p _ _ =>
      if p == "tiktok" then .ok (.obj [("file_path", "/tmp/f.mp4")])
      else if p == "contentunderstanding" then .ok (.obj [("description", "d")])
      else .error "ConnectionError" }

def csC6 : List ToolCall := [
  { platform := "tiktok", tool_name := some "download_video", params := [("url", "u")] },
  { platform := "twitter", tool_name := some "get_trends", params := [] }]

/-- C6 counterexample: a stage-1 batch of N = 2 calls in which call 1 fails
and call 0 (a tiktok `download_video`) succeeds produces three mapping
entries, not two: the special tiktok branch records both the download result
and the chained analysis result for a single call. -/
theorem C6_counterexample :
    csC6.length = 2 ∧
    (runInitialCalls envC6 csC6 0 [] []).1.length = 3 ∧
    (runInitialCalls envC6 csC6 0 [] []).1.map Prod.fst =
      ["tiktok_download_video_result_0",
       "contentunderstanding_analyze_local_video_from_/tmp/f.mp4",
       "twitter_get_trends_1_error"] := by
  decide

/-- C6 (amended): for every stage-1 batch with no tiktok `download_video`
call, the executor loop produces exactly one result-mapping entry per call —
the entry list is literally one `entry1Of` outcome (success, skip, or error)
per indexed call — and hence exactly N entries for N calls; nothing
propagates past the loop (it is a total function whose every per-call outcome
is a mapping entry).  A successful tiktok `download_video` call instead
contributes two entries (see the counterexample). -/
theorem C6_one_entry_per_call (env : Env) (cs : List ToolCall)
    (hnt : ∀ c ∈ cs, isTiktokDl (pyLower c.platform) c.tool_name = false) :
    (runInitialCalls env cs 0 [] []).1 =
      (List.enumFrom 0 cs).map (fun jc => entry1Of env jc.1 jc.2) ∧
    (runInitialCalls env cs 0 [] []).1.length = cs.length := by
  have h := runInitialCalls_entries env cs hnt
  refine ⟨by rw [h], ?_⟩
  rw [h]
  simp [List.enumFrom_length]

def envC6w : Env :=
  { oracle1 := .error ""
    oracle2 := .error ""
    oracle3 := .error ""
    tool := fun p _ _ =>
      if p == "twitter" then .ok (.obj [("data", "x")])
      else .error "boom" }

def csC6w : List ToolCall := [
  { platform := "twitter", tool_name := some "get_trends", params := [] },
  { platform := "linkedin", tool_name := some "get_profile_posts", params := [] },
  { platform := "twitter", tool_name := some "search_tweets", params := [("query", "q")] }]

/-- C6 witness: a three-call batch where call 1 fails and the others succeed
yields exactly three entries, one per call. -/
theorem C6_one_entry_per_call_witness :
    (runInitialCalls envC6w csC6w 0 [] []).1 =
      (List.enumFrom 0 csC6w).map (fun jc => entry1Of envC6w jc.1 jc.2) ∧
    (runInitialCalls envC6w csC6w 0 [] []).1.length = csC6w.length :=
  C6_one_entry_per_call envC6w csC6w (by decide)

/-! ## Claim C4 -/

def planC4s1 : Plan1 := { calls := .list [], direct_answer := none, process_instructions := some "i" }

def planC4s2 : Plan2 :=
  { derivative_calls := [
      { platform := "tiktok", tool_name := some "download_video", params := [("url", "u")] },
      { platform := "twitter", tool_name := some "get_trends", params := [] }]
    final_process_instructions := some "f" }

def envC4 : Env :=
  { oracle1 := .ok planC4s1
    oracle2 := .ok planC4s2
    oracle3 := .ok "final"
    tool := fun p _ _ =>
      if p == "tiktok" then .error "ConnErr"
      else .ok .other }

/-- C4 counterexample: in the stage-2 executor loop a collaborator failure of
a tiktok `download_video` call is not caught inside the loop — it escapes,
marks the stage `failed`, leaves no `..._error` mapping entry, and the
remaining call of the batch is never executed. -/
theorem C4_counterexample :
    (pipelineRun envC4 "t").stage2.status = "failed" ∧
    (pipelineRun envC4 "t").stage2.error = some "Stage 2 failed: ConnErr" ∧
    (pipelineRun envC4 "t").results2 = [] ∧
    Event.mcpCall "twitter" "get_trends" [] ∉ (pipelineRun envC4 "t").trace := by
  decide

/-- In stage 1 every valid failing call — the tiktok `download_video` branch
included, whose error arm (line 597 failing, caught at lines 612-613) writes
the same key as the plain arm — turns into exactly one stringified error
entry under the indexed `_error` key, and the iteration returns normally. -/
theorem runInitialCall_error_eq (env : Env) (i : Nat) (c : ToolCall) (d : Dict) (e : String)
    (hv : invalidCall (pyLower c.platform) c.tool_name = false)
    (herr : (call_mcp_tool_via_protocol env (pyLower c.platform) (toolNameStr c.tool_name)
      c.params).1 = .error e) :
    runInitialCall env i c d =
      (dictInsert d (mkErrKey (pyLower c.platform ++ "_" ++ toolNameStr c.tool_name) i)
        (Value.str e),
       (call_mcp_tool_via_protocol env (pyLower c.platform) (toolNameStr c.tool_name) c.params).2) := by
  unfold runInitialCall
  simp only [hv, Bool.false_eq_true, if_false]
  cases hti : isTiktokDl (pyLower c.platform) c.tool_name with
  | true =>
      simp only [hti, if_true, herr]
      rfl
  | false =>
      simp only [hti, Bool.false_eq_true, if_false, herr]
      rfl

theorem runInitialCalls_trace_mono (env : Env) :
    ∀ (cs : List ToolCall) (i : Nat) (d : Dict) (ev : List Event),
      ∃ tr, (runInitialCalls env cs i d ev).2 = ev ++ tr := by
  intro cs
  induction cs with
  | nil => intro i d ev; exact ⟨[], by simp [runInitialCalls]⟩
  | cons c rest ih =>
      intro i d ev
      obtain ⟨tr, htr⟩ := ih (i + 1) (runInitialCall env i c d).1
        (ev ++ (runInitialCall env i c d).2)
      refine ⟨(runInitialCall env i c d).2 ++ tr, ?_⟩
      show (runInitialCalls env (c :: rest) i d ev).2 = _
      unfold runInitialCalls
      rw [htr, List.append_assoc]

/-- A valid call whose platform is in the registry always reaches its
collaborator, whatever its own or the other calls' outcomes. -/
theorem runInitialCall_event_mem (env : Env) (i : Nat) (c : ToolCall) (d : Dict)
    (hv : invalidCall (pyLower c.platform) c.tool_name = false)
    (hk : (lookupStr MCP_SERVER_SCRIPTS (pyLower (pyLower c.platform))).isSome = true) :
    Event.mcpCall (pyLower c.platform) (toolNameStr c.tool_name) c.params ∈
      (runInitialCall env i c d).2 := by
  obtain ⟨path, hpath⟩ := Option.isSome_iff_exists.mp hk
  have hcm : call_mcp_tool_via_protocol env (pyLower c.platform) (toolNameStr c.tool_name)
      c.params =
      (env.tool (pyLower c.platform) (toolNameStr c.tool_name) c.params,
       [Event.mcpCall (pyLower c.platform) (toolNameStr c.tool_name) c.params]) := by
    unfold call_mcp_tool_via_protocol
    rw [hpath]
  unfold runInitialCall
  simp only [hv, Bool.false_eq_true, if_false, hcm]
  cases hti : isTiktokDl (pyLower c.platform) c.tool_name with
  | false =>
      simp only [hti, Bool.false_eq_true, if_false]
      cases env.tool (pyLower c.platform) (toolNameStr c.tool_name) c.params <;> simp
  | true =>
      simp only [hti, if_true]
      cases env.tool (pyLower c.platform) (toolNameStr c.tool_name) c.params with
      | error e => simp
      | ok dv =>
          cases dv with
          | obj fs =>
              cases hfp : lookupStr fs "file_path" with
              | none => simp [hfp]
              | some f =>
                  by_cases hf : f = ""
                  · simp [hfp, hf]
                  · simp only [hfp]
                    cases (call_mcp_tool_via_protocol env "contentunderstanding"
                        "analyze_local_video" [("file_path", f)]).1 <;> simp [hf]
          | str s => simp
          | other => simp

theorem runInitialCalls_event_mem (env : Env) :
    ∀ (cs : List ToolCall) (i0 : Nat) (d : Dict) (ev : List Event) (j : Nat) (c' : ToolCall),
      cs.get? j = some c' →
      invalidCall (pyLower c'.platform) c'.tool_name = false →
      (lookupStr MCP_SERVER_SCRIPTS (pyLower (pyLower c'.platform))).isSome = true →
      Event.mcpCall (pyLower c'.platform) (toolNameStr c'.tool_name) c'.params ∈
        (runInitialCalls env cs i0 d ev).2 := by
  intro cs
  induction cs with
  | nil => intro i0 d ev j c' hj; simp [List.get?] at hj
  | cons c rest ih =>
      intro i0 d ev j c' hj hv hk
      cases j with
      | zero =>
          have hc : c = c' := by simpa [List.get?] using hj
          subst hc
          show _ ∈ (runInitialCalls env (c :: rest) i0 d ev).2
          unfold runInitialCalls
          obtain ⟨tr, htr⟩ := runInitialCalls_trace_mono env rest (i0 + 1)
            (runInitialCall env i0 c d).1 (ev ++ (runInitialCall env i0 c d).2)
          rw [htr]
          have hm := runInitialCall_event_mem env i0 c d hv hk
          simp only [List.mem_append]
          exact Or.inl (Or.inr hm)
      | succ j' =>
          have hj' : rest.get? j' = some c' := hj
          show _ ∈ (runInitialCalls env (c :: rest) i0 d ev).2
          unfold runInitialCalls
          exact ih (i0 + 1) _ _ j' c' hj' hv hk

theorem dictInsert_values_str (d : Dict) (k : String) (s : String)
    (h : ∀ en ∈ d, ∃ s', en.2 = Value.str s') :
    ∀ en ∈ dictInsert d k (.str s), ∃ s', en.2 = Value.str s' := by
  unfold dictInsert
  by_cases hk : d.any (fun e => e.1 == k) = true
  · simp only [hk, if_true]
    intro en hen
    obtain ⟨e0, he0, heq⟩ := List.mem_map.mp hen
    by_cases h1 : (e0.1 == k) = true
    · rw [← heq]
      simp only [h1, if_true]
      exact ⟨s, rfl⟩
    · rw [← heq]
      simp only [h1, Bool.false_eq_true, if_false]
      exact h e0 he0
  · simp only [hk, Bool.false_eq_true, if_false]
    intro en hen
    rcases List.mem_append.mp hen with hd | hsing
    · exact h en hd
    · rw [List.mem_singleton] at hsing
      rw [hsing]
      exact ⟨s, rfl⟩

theorem runInitialCalls_allfail_values (env : Env) :
    ∀ (cs : List ToolCall) (i0 : Nat) (d : Dict) (ev : List Event),
      (∀ c ∈ cs, invalidCall (pyLower c.platform) c.tool_name = false) →
      (∀ c ∈ cs, ∃ e, (call_mcp_tool_via_protocol env (pyLower c.platform)
        (toolNameStr c.tool_name) c.params).1 = .error e) →
      (∀ en ∈ d, ∃ s, en.2 = Value.str s) →
      ∀ en ∈ (runInitialCalls env cs i0 d ev).1, ∃ s, en.2 = Value.str s := by
  intro cs
  induction cs with
  | nil => intro i0 d ev _ _ hd; simpa [runInitialCalls] using hd
  | cons c rest ih =>
      intro i0 d ev hval hfail hd
      obtain ⟨e, he⟩ := hfail c (by simp)
      show ∀ en ∈ (runInitialCalls env (c :: rest) i0 d ev).1, _
      unfold runInitialCalls
      rw [runInitialCall_error_eq env i0 c d e (hval c (by simp)) he]
      exact ih (i0 + 1) _ _ (fun c' hc' => hval c' (by simp [hc']))
        (fun c' hc' => hfail c' (by simp [hc']))
        (dictInsert_values_str d _ e hd)

theorem foldl_scanStep_str : ∀ (vals : List Value), (∀ v ∈ vals, ∃ s, v = Value.str s) →
    ∀ acc : Option String × Option String, vals.foldl scanStep acc = acc
  | [], _, _ => rfl
  | v :: vs, h, acc => by
      obtain ⟨s, hs⟩ := h v (by simp)
      rw [List.foldl_cons, hs]
      exact foldl_scanStep_str vs (fun v' hv' => h v' (by simp [hv'])) acc

/-- A result mapping holding only stringified messages (as a batch of all
failing calls produces) triggers no chain action at all. -/
theorem auto_chain_all_str (env : Env) (d : Dict) (h : ∀ en ∈ d, ∃ s, en.2 = Value.str s) :
    auto_chain_tiktok_video_analysis env d = { dict := d, trace := [], exc := none } := by
  have hsc : scanLocators (d.map Prod.snd) = (none, none) := by
    unfold scanLocators
    refine foldl_scanStep_str _ ?_ _
    intro v hv
    obtain ⟨en, hen, he⟩ := List.mem_map.mp hv
    obtain ⟨s, hs⟩ := h en hen
    exact ⟨s, by rw [← he, hs]⟩
  unfold auto_chain_tiktok_video_analysis
  simp [hsc, chainAnalyze]

/-- Per-call failures alone never fail stage 1: even when every call of a
nonempty batch fails, the stage ends in a `completed_*` status with no error
record (`failed` can only come from the oracle or a chain exception). -/
theorem stage1_allfail_not_failed (env : Env) (task : String) (p : Plan1)
    (henv : env.oracle1 = .ok p)
    (hne : callsOfField p.calls ≠ [])
    (hval : ∀ c ∈ callsOfField p.calls, invalidCall (pyLower c.platform) c.tool_name = false)
    (hfail : ∀ c ∈ callsOfField p.calls, ∃ e,
      (call_mcp_tool_via_protocol env (pyLower c.platform) (toolNameStr c.tool_name) c.params).1 =
        .error e) :
    (stage1Run env task).log.status ≠ "failed" ∧ (stage1Run env task).log.error = none := by
  have hstr : ∀ en ∈ (runInitialCalls env (callsOfField p.calls) 0 [] []).1, ∃ s,
      en.2 = Value.str s :=
    runInitialCalls_allfail_values env (callsOfField p.calls) 0 [] [] hval hfail (by simp)
  have hch := auto_chain_all_str env _ hstr
  have hempty : (callsOfField p.calls).isEmpty = false := by
    rcases hcs : callsOfField p.calls with _ | ⟨c0, rest⟩
    · exact absurd hcs hne
    · rfl
  unfold stage1Run
  rw [henv]
  dsimp only
  simp only [hempty, Bool.and_false, Bool.false_eq_true, if_false, Bool.not_false, if_true]
  rw [hch]
  dsimp only
  constructor
  · split
    · decide
    · split <;> decide
  · rfl

theorem runDerivCall_error_eq (env : Env) (i : Nat) (c : ToolCall) (d : Dict) (e : String)
    (hnt : isTiktokDl (pyLower c.platform) c.tool_name = false)
    (herr : (call_mcp_tool_via_protocol env (pyLower c.platform) (toolNameStr c.tool_name)
      c.params).1 = .error e) :
    runDerivCall env i c d =
      { dict := dictInsert d (pyLower c.platform ++ "_" ++ toolNameStr c.tool_name ++ "_deriv_" ++
          decRepr i ++ "_error") (.str e),
        trace := (call_mcp_tool_via_protocol env (pyLower c.platform) (toolNameStr c.tool_name)
          c.params).2,
        exc := none } := by
  unfold runDerivCall
  simp only [hnt, Bool.false_eq_true, if_false, herr]

theorem runDerivCalls_no_exc (env : Env) :
    ∀ (cs : List ToolCall) (i : Nat) (d : Dict) (ev : List Event),
      (∀ c ∈ cs, isTiktokDl (pyLower c.platform) c.tool_name = false) →
      (runDerivCalls env cs i d ev).exc = none := by
  intro cs
  induction cs with
  | nil => intro i d ev _; rfl
  | cons c rest ih =>
      intro i d ev h
      have hnt := h c (by simp)
      have hx : (runDerivCall env i c d).exc = none := by
        unfold runDerivCall
        simp only [hnt, Bool.false_eq_true, if_false]
        cases (call_mcp_tool_via_protocol env (pyLower c.platform) (toolNameStr c.tool_name)
            c.params).1 <;> rfl
      show (runDerivCalls env (c :: rest) i d ev).exc = none
      unfold runDerivCalls
      simp only [hx]
      exact ih (i + 1) _ _ (fun c' hc' => h c' (by simp [hc']))

/-- C4 (amended): in the stage-1 executor loop every per-call execution
failure — including a failing tiktok `download_video` call — is caught
inside the loop, stringified, and recorded under the
`<platform>_<tool>_<index>_error` key while the loop proceeds to the
remaining calls (first conjunct); every valid, registry-known call of any
batch is still executed against its collaborator, whatever the other calls
do (second conjunct); and per-call failures never mark the stage `failed`
(third conjunct).  In the stage-2 loop the same catch-and-record holds only
for calls outside the tiktok `download_video` branch, under
`<platform>_<tool>_deriv_<index>_error` keys (fourth conjunct), and such a
loop never raises past its boundary (fifth conjunct); a failing stage-2
tiktok `download_video` call instead escapes and fails the stage, as the
counterexample shows. -/
theorem C4_failure_isolation (env : Env) :
    (∀ (i : Nat) (c : ToolCall) (rest : List ToolCall) (d : Dict) (ev : List Event) (e : String),
       invalidCall (pyLower c.platform) c.tool_name = false →
       (call_mcp_tool_via_protocol env (pyLower c.platform) (toolNameStr c.tool_name)
         c.params).1 = .error e →
       runInitialCalls env (c :: rest) i d ev =
         runInitialCalls env rest (i + 1)
           (dictInsert d (mkErrKey (pyLower c.platform ++ "_" ++ toolNameStr c.tool_name) i)
             (Value.str e))
           (ev ++ (call_mcp_tool_via_protocol env (pyLower c.platform)
             (toolNameStr c.tool_name) c.params).2)) ∧
    (∀ (cs : List ToolCall) (i0 : Nat) (d : Dict) (ev : List Event) (j : Nat) (c' : ToolCall),
       cs.get? j = some c' →
       invalidCall (pyLower c'.platform) c'.tool_name = false →
       (lookupStr MCP_SERVER_SCRIPTS (pyLower (pyLower c'.platform))).isSome = true →
       Event.mcpCall (pyLower c'.platform) (toolNameStr c'.tool_name) c'.params ∈
         (runInitialCalls env cs i0 d ev).2) ∧
    (∀ (task : String) (p : Plan1),
       env.oracle1 = .ok p →
       callsOfField p.calls ≠ [] →
       (∀ c ∈ callsOfField p.calls, invalidCall (pyLower c.platform) c.tool_name = false) →
       (∀ c ∈ callsOfField p.calls, ∃ e,
         (call_mcp_tool_via_protocol env (pyLower c.platform) (toolNameStr c.tool_name)
           c.params).1 = .error e) →
       (stage1Run env task).log.status ≠ "failed" ∧ (stage1Run env task).log.error = none) ∧
    (∀ (i : Nat) (c : ToolCall) (rest : List ToolCall) (d : Dict) (ev : List Event) (e : String),
       isTiktokDl (pyLower c.platform) c.tool_name = false →
       (call_mcp_tool_via_protocol env (pyLower c.platform) (toolNameStr c.tool_name)
         c.params).1 = .error e →
       runDerivCalls env (c :: rest) i d ev =
         runDerivCalls env rest (i + 1)
           (dictInsert d (pyLower c.platform ++ "_" ++ toolNameStr c.tool_name ++ "_deriv_" ++
             decRepr i ++ "_error") (Value.str e))
           (ev ++ (call_mcp_tool_via_protocol env (pyLower c.platform)
             (toolNameStr c.tool_name) c.params).2)) ∧
    (∀ (cs : List ToolCall) (i0 : Nat) (d : Dict) (ev : List Event),
       (∀ c ∈ cs, isTiktokDl (pyLower c.platform) c.tool_name = false) →
       (runDerivCalls env cs i0 d ev).exc = none) := by
  refine ⟨?_, ?_, ?_, ?_, ?_⟩
  · intro i c rest d ev e hv herr
    show runInitialCalls env (c :: rest) i d ev = _
    simp only [runInitialCalls]
    rw [runInitialCall_error_eq env i c d e hv herr]
  · exact runInitialCalls_event_mem env
  · exact fun task p henv hne hval hfail =>
      stage1_allfail_not_failed env task p henv hne hval hfail
  · intro i c rest d ev e hnt herr
    show runDerivCalls env (c :: rest) i d ev = _
    simp only [runDerivCalls]
    rw [runDerivCall_error_eq env i c d e hnt herr]
  · exact runDerivCalls_no_exc env


def envC4w : Env :=
  { oracle1 := .error ""
    oracle2 := .error ""
    oracle3 := .error ""
    tool := fun p _ _ =>
      if p == "twitter" then .ok (.obj [("data", "x")])
      else .error "boom" }

def cC4a : ToolCall := { platform := "twitter", tool_name := some "get_trends", params := [] }

def cC4b : ToolCall := { platform := "linkedin", tool_name := some "get_profile_posts", params := [] }

def cC4t : ToolCall := { platform := "tiktok", tool_name := some "download_video", params := [("url", "u")] }

def planC4w : Plan1 :=
  { calls := .list [cC4b]
    direct_answer := none
    process_instructions := some "i" }

def envC4w2 : Env :=
  { oracle1 := .ok planC4w
    oracle2 := .error ""
    oracle3 := .ok "final"
    tool := fun _ _ _ => .error "boom" }

/-- C4 witness: the amended theorem applied at concrete batches — a failing
ordinary stage-1 call and a failing stage-1 tiktok `download_video` call are
each recorded under their indexed `_error` key with the loop continuing; a
valid call still executes in a mixed batch; an all-failing batch leaves
stage 1 non-`failed`; a failing non-tiktok stage-2 call is recorded under its
`_deriv_` error key; and a non-tiktok stage-2 batch raises nothing. -/
theorem C4_failure_isolation_witness :
    (runInitialCalls envC4w [cC4b, cC4a] 0 [] [] =
      runInitialCalls envC4w [cC4a] 1
        (dictInsert [] (mkErrKey (pyLower cC4b.platform ++ "_" ++ toolNameStr cC4b.tool_name) 0)
          (Value.str "boom"))
        ([] ++ (call_mcp_tool_via_protocol envC4w (pyLower cC4b.platform)
          (toolNameStr cC4b.tool_name) cC4b.params).2)) ∧
    (runInitialCalls envC4w [cC4t] 0 [] [] =
      runInitialCalls envC4w [] 1
        (dictInsert [] (mkErrKey (pyLower cC4t.platform ++ "_" ++ toolNameStr cC4t.tool_name) 0)
          (Value.str "boom"))
        ([] ++ (call_mcp_tool_via_protocol envC4w (pyLower cC4t.platform)
          (toolNameStr cC4t.tool_name) cC4t.params).2)) ∧
    Event.mcpCall (pyLower cC4a.platform) (toolNameStr cC4a.tool_name) cC4a.params ∈
      (runInitialCalls envC4w [cC4b, cC4a] 0 [] []).2 ∧
    ((stage1Run envC4w2 "t").log.status ≠ "failed" ∧ (stage1Run envC4w2 "t").log.error = none) ∧
    (runDerivCalls envC4w [cC4b, cC4a] 0 [] [] =
      runDerivCalls envC4w [cC4a] 1
        (dictInsert [] (pyLower cC4b.platform ++ "_" ++ toolNameStr cC4b.tool_name ++ "_deriv_" ++
          decRepr 0 ++ "_error") (Value.str "boom"))
        ([] ++ (call_mcp_tool_via_protocol envC4w (pyLower cC4b.platform)
          (toolNameStr cC4b.tool_name) cC4b.params).2)) ∧
    (runDerivCalls envC4w [cC4b, cC4a] 0 [] []).exc = none := by
  have h1 := C4_failure_isolation envC4w
  have h2 := C4_failure_isolation envC4w2
  refine ⟨?_, ?_, ?_, ?_, ?_, ?_⟩
  · exact h1.1 0 cC4b [cC4a] [] [] "boom" (by decide) rfl
  · exact h1.1 0 cC4t [] [] [] "boom" (by decide) rfl
  · exact h1.2.1 [cC4b, cC4a] 0 [] [] 1 cC4a (by decide) (by decide) (by decide)
  · refine h2.2.2.1 "t" planC4w rfl (by decide) ?_ ?_
    · intro c hc
      have hc' : c = cC4b := by simpa [planC4w, callsOfField] using hc
      rw [hc']
      decide
    · intro c hc
      have hc' : c = cC4b := by simpa [planC4w, callsOfField] using hc
      rw [hc']
      exact ⟨"boom", rfl⟩
  · exact h1.2.2.2.1 0 cC4b [cC4a] [] [] "boom" (by decide) rfl
  · exact h1.2.2.2.2 [cC4b, cC4a] 0 [] [] (by decide)

/-! ## Claim C5 -/

def envC5 : Env :=
  { oracle1 := .error ""
    oracle2 := .error ""
    oracle3 := .error ""
    tool := fun _ _ _ => .ok .other }

def csC5 : List ToolCall := [{ platform := "myspace", tool_name := some "foo", params := [] }]

/-- C5 counterexample: a stage-1 call whose platform is nonempty but unknown
to the registry is recorded as an `_error` entry (the stringified 404), not
as a `call_<i>_skipped` entry, and no collaborator is executed. -/
theorem C5_counterexample :
    (runInitialCalls envC5 csC5 0 [] []).1.map Prod.fst = ["myspace_foo_0_error"] ∧
    (runInitialCalls envC5 csC5 0 [] []).2 = [] ∧
    dictHasKey (runInitialCalls envC5 csC5 0 [] []).1 "call_0_skipped" = false := by
  decide

/-- C5 (amended): in the stage-1 loop, a call with empty platform or
tool_name is recorded as skipped under `call_<i>_skipped` and a call with an
unknown platform is recorded as an `_error` entry carrying the stringified
404; in both cases no collaborator process is executed for it and the next
call of the batch still runs normally.  (Stage 2's loop has no skip check at
all, so there invalid calls also surface as `_error` entries.) -/
theorem C5_invalid_and_unknown (env : Env) (c c' : ToolCall)
    (hnt' : isTiktokDl (pyLower c'.platform) c'.tool_name = false)
    (hc : invalidCall (pyLower c.platform) c.tool_name = true ∨
          (invalidCall (pyLower c.platform) c.tool_name = false ∧
           lookupStr MCP_SERVER_SCRIPTS (pyLower (pyLower c.platform)) = none)) :
    (runInitialCalls env [c, c'] 0 [] []).1 = [entry1Of env 0 c, entry1Of env 1 c'] ∧
    (runInitialCalls env [c, c'] 0 [] []).2 = events1Of env 1 c' ∧
    (invalidCall (pyLower c.platform) c.tool_name = true →
      entry1Of env 0 c = skipEntry 0 (pyLower c.platform) c.tool_name) ∧
    (invalidCall (pyLower c.platform) c.tool_name = false →
      lookupStr MCP_SERVER_SCRIPTS (pyLower (pyLower c.platform)) = none →
      entry1Of env 0 c = (mkErrKey (pyLower c.platform ++ "_" ++ toolNameStr c.tool_name) 0,
        Value.str ("404: MCP server script for platform '" ++ pyLower c.platform ++
          "' not configured."))) := by
  have hntc : isTiktokDl (pyLower c.platform) c.tool_name = false := by
    cases hti : isTiktokDl (pyLower c.platform) c.tool_name with
    | false => rfl
    | true =>
        exfalso
        unfold isTiktokDl at hti
        have hp : (pyLower c.platform == "tiktok") = true := by
          cases hb : (pyLower c.platform == "tiktok") with
          | true => rfl
          | false => rw [hb] at hti; simp at hti
        have ht : (c.tool_name == some "download_video") = true := by
          cases hb : (c.tool_name == some "download_video") with
          | true => rfl
          | false => rw [hb] at hti; simp at hti
        have hpe : pyLower c.platform = "tiktok" := beq_iff_eq.mp hp
        have hte : c.tool_name = some "download_video" := beq_iff_eq.mp ht
        rcases hc with hv | ⟨hv, hun⟩
        · unfold invalidCall at hv
          rw [hpe, hte] at hv
          exact absurd hv (by decide)
        · rw [hpe] at hun
          exact absurd hun (by decide)
  have hents := runInitialCalls_spec env [c, c'] 0 [] []
    (by
      intro x hx
      rcases List.mem_cons.mp hx with h1 | h1
      · rw [h1]; exact hntc
      · rw [List.mem_singleton] at h1
        rw [h1]; exact hnt')
    (by simp)
  have hev0 : events1Of env 0 c = [] := by
    unfold events1Of
    rcases hc with hv | ⟨hv, hun⟩
    · simp [hv]
    · simp only [hv, Bool.false_eq_true, if_false]
      unfold call_mcp_tool_via_protocol
      rw [hun]
  refine ⟨?_, ?_, ?_, ?_⟩
  · rw [hents]
    simp [List.enumFrom_cons]
  · rw [hents]
    simp [List.enumFrom_cons, hev0]
  · intro hv
    unfold entry1Of
    simp [hv]
  · intro hv hun
    unfold entry1Of
    simp only [hv, Bool.false_eq_true, if_false]
    unfold call_mcp_tool_via_protocol
    rw [hun]

def cC5a : ToolCall := { platform := "", tool_name := some "get_trends", params := [] }

def cC5b : ToolCall := { platform := "twitter", tool_name := some "get_trends", params := [] }

/-- C5 witness: an empty-platform call followed by a valid call — the first
is recorded as skipped, the second still runs. -/
theorem C5_invalid_and_unknown_witness :
    (runInitialCalls envC5 [cC5a, cC5b] 0 [] []).1 =
      [entry1Of envC5 0 cC5a, entry1Of envC5 1 cC5b] ∧
    (runInitialCalls envC5 [cC5a, cC5b] 0 [] []).2 = events1Of envC5 1 cC5b ∧
    entry1Of envC5 0 cC5a = skipEntry 0 (pyLower cC5a.platform) cC5a.tool_name := by
  have happ := C5_invalid_and_unknown envC5 cC5a cC5b (by decide) (Or.inl (by decide))
  exact ⟨happ.1, happ.2.1, happ.2.2.1 (by decide)⟩

/-! ## Claim C2 -/

def planC2 : Plan1 :=
  { calls := .list [], direct_answer := some (.str " "), process_instructions := some "pi" }

def planC2deriv : Plan2 := { derivative_calls := [], final_process_instructions := some "f" }

def envC2 : Env :=
  { oracle1 := .ok planC2
    oracle2 := .ok planC2deriv
    oracle3 := .ok "synth"
    tool := fun _ _ _ => .error "no" }

theorem stage1_direct (env : Env) (task : String) (p : Plan1) (s : String)
    (h1 : env.oracle1 = .ok p) (h2 : p.direct_answer = some (.str s))
    (h3 : pyStrip s ≠ "") (h4 : callsOfField p.calls = []) :
    stage1Run env task =
      { log := { status := "completed_direct_answer" }, results := [],
        instructions := p.process_instructions.getD ("根据初步结果，决定下一步骤以完成用户任务: " ++ task),
        finalSet := some s, trace := [.oracleConsult 1] } := by
  have hs : s ≠ "" := by
    intro h
    exact h3 (by rw [h]; rfl)
  have hda : directAnswerOk (some (DAVal.str s)) = true := by
    unfold directAnswerOk
    simp [hs, h3]
  unfold stage1Run
  rw [h1]
  simp [h4, h2, hda, daString]

/-- C2 counterexample: a first-pass reply whose `direct_answer` is the
non-empty string `" "` with an empty calls list does not terminate the
pipeline after stage 1 — the whitespace-only answer fails the `strip()`
check, so stages 2 and 3 still consult the oracle and the returned answer is
the synthesized text, not the direct answer. -/
theorem C2_counterexample :
    planC2.direct_answer = some (.str " ") ∧
    (" " : String) ≠ "" ∧
    callsOfField planC2.calls = [] ∧
    envC2.oracle1 = .ok planC2 ∧
    gptAgentResponse envC2 "t" = "synth" ∧
    gptAgentResponse envC2 "t" ≠ " " ∧
    (pipelineRun envC2 "t").trace =
      [Event.oracleConsult 1, Event.oracleConsult 2, Event.oracleConsult 3] :=
  ⟨rfl, by decide, rfl, rfl, by decide, by decide, by decide⟩

/-- C2 (amended): when the first-pass reply carries a string `direct_answer`
that is non-blank (nonempty after stripping whitespace, which is the code's
actual guard) and an empty calls list, the pipeline stops after stage 1: no
collaborator call, no second or third oracle consultation, and the endpoint
returns that direct answer verbatim. -/
theorem C2_direct_answer_terminates (env : Env) (task : String) (p : Plan1) (s : String)
    (h1 : env.oracle1 = .ok p) (h2 : p.direct_answer = some (.str s))
    (h3 : pyStrip s ≠ "") (h4 : callsOfField p.calls = []) :
    gptAgentResponse env task = s ∧
    (pipelineRun env task).trace = [Event.oracleConsult 1] ∧
    (pipelineRun env task).stage1.status = "completed_direct_answer" ∧
    (pipelineRun env task).stage2.status = "pending" ∧
    (pipelineRun env task).stage3.status = "pending" := by
  have hs1 := stage1_direct env task p s h1 h2 h3 h4
  unfold gptAgentResponse pipelineRun stage2Run
  rw [hs1]
  simp

def planC2w : Plan1 :=
  { calls := .absent, direct_answer := some (.str "巴黎是法国的首都。"), process_instructions := none }

def envC2w : Env :=
  { oracle1 := .ok planC2w
    oracle2 := .error "unreached"
    oracle3 := .error "unreached"
    tool := fun _ _ _ => .error "no" }

/-- C2 witness: a concrete run with a non-blank direct answer and no calls
terminates at stage 1 with that answer. -/
theorem C2_direct_answer_terminates_witness :
    gptAgentResponse envC2w "法国的首都是什么？" = "巴黎是法国的首都。" ∧
    (pipelineRun envC2w "法国的首都是什么？").trace = [Event.oracleConsult 1] ∧
    (pipelineRun envC2w "法国的首都是什么？").stage1.status = "completed_direct_answer" ∧
    (pipelineRun envC2w "法国的首都是什么？").stage2.status = "pending" ∧
    (pipelineRun envC2w "法国的首都是什么？").stage3.status = "pending" :=
  C2_direct_answer_terminates envC2w "法国的首都是什么？" planC2w "巴黎是法国的首都。"
    rfl rfl (by decide) rfl

/-! ## Claim C3 -/

def planEmpty2 : Plan2 := { derivative_calls := [], final_process_instructions := none }

def envC3 : Env :=
  { oracle1 := .error "RuntimeError - boom"
    oracle2 := .ok planEmpty2
    oracle3 := .ok "unreached"
    tool := fun _ _ _ => .error "no" }

/-- C3: when the stage-1 oracle consultation fails, the stage is marked
`failed` and the downstream stages are skipped (as claimed), but the caller
receives the empty string, not the stage-failure message: line 750 resets
`final_gpt_processed_result` to `""` for every non-direct-answer run,
overwriting the error message stored at line 631.  The code thus violates
the claim's (and its own line-631) guarantee that the caller never gets an
empty placeholder in place of the failure message. -/
theorem C3_stage1_failure_empty_answer :
    (pipelineRun envC3 "t").stage1.status = "failed" ∧
    (pipelineRun envC3 "t").stage1.error = some "Stage 1 failed: RuntimeError - boom" ∧
    (pipelineRun envC3 "t").stage2.status = "pending" ∧
    (pipelineRun envC3 "t").stage3.status = "pending" ∧
    (pipelineRun envC3 "t").trace = [Event.oracleConsult 1] ∧
    gptAgentResponse envC3 "t" = "" := by
  decide

/-! ## Claim C7 -/

def envC7a : Env :=
  { oracle1 := .error "E1"
    oracle2 := .ok planEmpty2
    oracle3 := .ok "unreached"
    tool := fun _ _ _ => .error "no" }

def envC7b : Env :=
  { oracle1 := .error "E2"
    oracle2 := .ok planEmpty2
    oracle3 := .ok "unreached"
    tool := fun _ _ _ => .error "no" }

/-- C7 counterexample: after a stage failure the endpoint does not return the
accumulated log — two runs whose logs differ (different stage-1 errors)
produce the identical, empty response, so no part of the log reaches the
caller. -/
theorem C7_counterexample :
    (pipelineRun envC7a "t").stage1.status = "failed" ∧
    (pipelineRun envC7a "t").stage1.error ≠ (pipelineRun envC7b "t").stage1.error ∧
    gptAgentResponse envC7a "t" = gptAgentResponse envC7b "t" ∧
    gptAgentResponse envC7a "t" = "" := by
  decide

theorem stage1_finalSet_isSome (env : Env) (task : String)
    (h : (stage1Run env task).log.status = "completed_direct_answer") :
    ∃ s, (stage1Run env task).finalSet = some s := by
  unfold stage1Run at h ⊢
  revert h
  cases henv : env.oracle1 with
  | error e =>
      intro h
      simp at h
  | ok p =>
      intro h
      dsimp only at h ⊢
      by_cases hif : (directAnswerOk p.direct_answer && (callsOfField p.calls).isEmpty) = true
      · simp only [hif, if_true]
        exact ⟨daString p.direct_answer, rfl⟩
      · simp only [hif, Bool.false_eq_true, if_false] at h ⊢
        by_cases hne : (!(callsOfField p.calls).isEmpty) = true
        · simp only [hne, if_true] at h ⊢
          cases hexc : (auto_chain_tiktok_video_analysis env
              (runInitialCalls env (callsOfField p.calls) 0 [] []).1).exc with
          | none =>
              simp only [hexc] at h
              split at h
              · simp at h
              · split at h
                · simp at h
                · simp at h
          | some e =>
              simp only [hexc] at h
              simp at h
        · simp only [hne, Bool.false_eq_true, if_false] at h
          simp at h

/-- C7 (amended): the response of `POST /gpt_agent` is always exactly the
final-answer string recorded in the run log (which every control path sets —
possibly to the empty string); the structured agent log itself is never
returned. -/
theorem C7_response_is_final_string (env : Env) (task : String) :
    ∃ s, (pipelineRun env task).final = some s ∧ gptAgentResponse env task = s := by
  suffices hs : ∃ s, (pipelineRun env task).final = some s by
    obtain ⟨s, hsome⟩ := hs
    exact ⟨s, hsome, by unfold gptAgentResponse; rw [hsome]; rfl⟩
  unfold pipelineRun
  by_cases hcond :
      (["completed_direct_answer", "failed"].contains (stage1Run env task).log.status) = true
  · simp only [hcond, if_true]
    by_cases hd : ((stage1Run env task).log.status == "completed_direct_answer") = true
    · simp only [hd, if_true]
      exact stage1_finalSet_isSome env task (beq_iff_eq.mp hd)
    · simp only [hd, Bool.false_eq_true, if_false]
      exact ⟨"", rfl⟩
  · simp only [hcond, Bool.false_eq_true, if_false]
    cases env.oracle3 with
    | ok s => exact ⟨s, rfl⟩
    | error e => exact ⟨"Stage 3 failed: " ++ e, rfl⟩

/-! ## Claim C8 -/

theorem lrange_neg_limit (xs : List HistEntry) (L : Int) (hL : 1 ≤ L) :
    lrange xs (-L) (-1) = xs.drop (xs.length - L.toNat) := by
  unfold lrange
  dsimp only
  rw [if_pos (show -L < 0 by omega), if_pos (show (-1 : Int) < 0 by omega)]
  have hm1 : (xs.length : Int) + -1 = (xs.length : Int) - 1 := by ring
  rw [hm1, min_self]
  rcases Nat.eq_zero_or_pos xs.length with h0 | hpos
  · have hnil : xs = [] := List.eq_nil_of_length_eq_zero h0
    subst hnil
    split <;> simp
  · have hn1 : (1 : Int) ≤ (xs.length : Int) := by exact_mod_cast hpos
    rw [if_neg (not_lt.mpr (max_le (by omega) (by omega)))]
    have hs_eq : (((xs.length : Int) + -L) ⊔ 0).toNat = xs.length - L.toNat := by
      rcases le_or_lt ((xs.length : Int) + -L) 0 with hc | hc
      · rw [max_eq_right hc]
        omega
      · rw [max_eq_left (le_of_lt hc)]
        omega
    rw [hs_eq]
    apply List.take_of_length_le
    rw [List.length_drop]
    omega

/-- C8 counterexample: for a session holding two user/assistant pairs,
`limit = 2` returns only the single assistant entry among the last two list
elements, not the most recent two assistant entries. -/
theorem C8_counterexample :
    chatHistoryOf [⟨"user", "U1"⟩, ⟨"assistant", "A1"⟩, ⟨"user", "U2"⟩, ⟨"assistant", "A2"⟩] 2 =
      ["A2"] ∧
    mostRecentAssistant [⟨"user", "U1"⟩, ⟨"assistant", "A1"⟩, ⟨"user", "U2"⟩, ⟨"assistant", "A2"⟩] 2 =
      ["A1", "A2"] ∧
    chatHistoryOf [⟨"user", "U1"⟩, ⟨"assistant", "A1"⟩, ⟨"user", "U2"⟩, ⟨"assistant", "A2"⟩] 2 ≠
      mostRecentAssistant [⟨"user", "U1"⟩, ⟨"assistant", "A1"⟩, ⟨"user", "U2"⟩, ⟨"assistant", "A2"⟩] 2 := by
  decide

/-- C8 (amended): for every stored session and positive limit `L`, the
history read returns the contents of the assistant-role entries found among
the last `L` elements of the mixed user/assistant session list — about `L/2`
assistant entries for a session written in pairs, not the most recent `L`
assistant entries. -/
theorem C8_history_last_entries (xs : List HistEntry) (L : Int) (hL : 1 ≤ L) :
    chatHistoryOf xs L =
      ((xs.drop (xs.length - L.toNat)).filter (fun e => e.role == "assistant")).map
        (fun e => e.content) := by
  unfold chatHistoryOf
  rw [lrange_neg_limit xs L hL]

/-- C8 witness: the amended theorem evaluated on a concrete session. -/
theorem C8_history_last_entries_witness :
    chatHistoryOf [⟨"user", "U1"⟩, ⟨"assistant", "A1"⟩, ⟨"user", "U2"⟩, ⟨"assistant", "A2"⟩] 3 =
      (([⟨"user", "U1"⟩, ⟨"assistant", "A1"⟩, ⟨"user", "U2"⟩,
          (⟨"assistant", "A2"⟩ : HistEntry)].drop
            ([⟨"user", "U1"⟩, ⟨"assistant", "A1"⟩, ⟨"user", "U2"⟩,
              (⟨"assistant", "A2"⟩ : HistEntry)].length - (3 : Int).toNat)).filter
        (fun e => e.role == "assistant")).map (fun e => e.content) :=
  C8_history_last_entries
    [⟨"user", "U1"⟩, ⟨"assistant", "A1"⟩, ⟨"user", "U2"⟩, ⟨"assistant", "A2"⟩] 3 (by decide)

/-! ## Claim C10 -/

def md5Stub : String → String := fun s => "h-" ++ s

def storeStub : String → List HistEntry := fun _ => []

/-- C10 counterexample: with an empty (but supplied) `task_hash` the key is
not derived from `task_hash` — the truthiness check falls through to hashing
`task`, so the two requests of the claim give different responses. -/
theorem C10_counterexample :
    get_chat_history md5Stub storeStub (some "x") (some "") 20 =
      .ok ("multi_agent_history:h-x", []) ∧
    get_chat_history md5Stub storeStub none (some "") 20 =
      .error "400: 请提供task或task_hash参数。" ∧
    get_chat_history md5Stub storeStub (some "x") (some "") 20 ≠
      get_chat_history md5Stub storeStub none (some "") 20 := by
  refine ⟨rfl, rfl, ?_⟩
  intro hEq
  have h2 : (Except.ok ("multi_agent_history:h-x", ([] : List String)) :
      Except String (String × List String)) = .error "400: 请提供task或task_hash参数。" := hEq
  exact Except.noConfusion h2

/-- C10 (amended): whenever the supplied `task_hash` is non-empty (truthy),
the session key is derived from it alone and the `task` parameter is ignored:
the response is identical with or without a `task` parameter, for every hash
function, store, task and limit. -/
theorem C10_hash_overrides_task (md5hex : String → String) (store : String → List HistEntry)
    (t h : String) (limit : Int) (hh : h ≠ "") :
    get_chat_history md5hex store (some t) (some h) limit =
      get_chat_history md5hex store none (some h) limit := by
  unfold get_chat_history resolve_session_key
  have hbe : (h == "") = false := by simp [hh]
  simp [hbe]

/-- C10 witness: the amended theorem at a concrete pair of requests. -/
theorem C10_hash_overrides_task_witness :
    get_chat_history md5Stub storeStub (some "any task") (some "abc123") 20 =
      get_chat_history md5Stub storeStub none (some "abc123") 20 :=
  C10_hash_overrides_task md5Stub storeStub "any task" "abc123" 20 (by decide)

end MCPClient
